import Mathlib

/-!
# DecentriLicense registry: device/license registry and transfer admission

A shallow embedding of `server/internal/model/device.go` (DeviceRegistry),
`server/internal/service/registry.go` (RegistryService), the request admission,
the route handlers and the response pool of `server/internal/handler/api.go`,
and `sdks/go/crypto/utils.go` (ComputeLicenseKeyHash).

Modelling conventions
* Go strings are Lean `String`s; `len(s)` is the UTF-8 byte length
  (`String.utf8ByteSize`), so a slice `s[:16]` is in range iff
  `16 ≤ s.utf8ByteSize`.
* `time.Time` is an `Int` (nanoseconds on one clock), `time.Duration` is an
  `Int` of nanoseconds; `Time.Sub` saturates at the int64 range as in Go.
  `time.Now()` is an explicit argument `now` of every operation that reads
  the clock.
* The two `sync.Map`s are association lists with the Load / Store /
  LoadOrStore / Delete / Range behaviour of a sequential execution; the
  registry is passed explicitly (state passing).
* A `*Device` stored in the map is a value: every pointer stored by the
  handlers is freshly decoded and stored under one key only.
* The int64 statistics counters are `Int`s; they move by one per operation, so
  wrap-around at 2^63 is not modelled.
* The rate limiter is the library `golang.org/x/time/rate`; it is modelled as
  a token bucket in exact arithmetic. A route handler is a function on the
  registry service that returns the response.
* A handler that panics sends nothing (`Reply.aborted`); the JSON decoder and
  encoder are outside the model: the decoded body is an argument and the
  encoder a parameter.
* The routes are served through the `http.ServeMux` of SetupRoutes: a request
  whose path is not canonical is redirected by the mux and reaches no
  handler (`serveLicensesRoute`).
* ComputeLicenseKeyHash works on the bytes of its argument (a list of
  numbers); `sha256.Sum256` is a parameter with the type of a `[32]byte`
  result.
-/

namespace DecentriLicense

/-! ## sync.Map, sequential behaviour -/

namespace SyncMap

/-- `m.Load(k)`: the value stored under `k`, if any. -/
def Load {V : Type} : List (String × V) → String → Option V
  | [], _ => none
  | (k', v) :: rest, k => if k' = k then some v else Load rest k

/-- `m.Store(k, v)`: sets the value for `k`, keeping one entry per key. -/
def Store {V : Type} : List (String × V) → String → V → List (String × V)
  | [], k, v => [(k, v)]
  | (k', v') :: rest, k, v =>
    if k' = k then (k, v) :: rest else (k', v') :: Store rest k v

/-- `m.Delete(k)`: removes the entry for `k`. -/
def Delete {V : Type} : List (String × V) → String → List (String × V)
  | [], _ => []
  | (k', v) :: rest, k => if k' = k then Delete rest k else (k', v) :: Delete rest k

/-- `m.LoadOrStore(k, v)`: returns the existing value and `loaded = true` when
`k` is present; otherwise stores `v` and returns it with `loaded = false`. -/
def LoadOrStore {V : Type} (m : List (String × V)) (k : String) (v : V) :
    List (String × V) × V × Bool :=
  match Load m k with
  | some actual => (m, actual, true)
  | none => (Store m k v, v, false)

end SyncMap

open SyncMap

/-! ## Data model (model/device.go) -/

/-- Device represents a registered device. -/
structure Device where
  DeviceID : String
  LicenseCode : String
  PublicIP : String
  TCPPort : Int
  LastSeen : Int
  deriving DecidableEq, Repr

/-- TokenTransfer represents a token transfer request. -/
structure TokenTransfer where
  TokenID : String
  TokenData : String
  FromDevice : String
  ToDevice : String
  LicenseCode : String
  Timestamp : Int
  deriving DecidableEq, Repr

/-- RegistryStats tracks registry statistics. -/
structure RegistryStats where
  TotalDevices : Int
  TotalLicenses : Int
  Registrations : Int
  Heartbeats : Int
  Queries : Int
  deriving DecidableEq, Repr

/-- DeviceRegistry: `devices` maps device_id to the device record, `licenses`
maps license_code to the device_id of the holder. -/
structure DeviceRegistry where
  devices : List (String × Device)
  licenses : List (String × String)
  stats : RegistryStats
  deriving DecidableEq, Repr

/-- NewDeviceRegistry: empty maps, zero counters. -/
def NewDeviceRegistry : DeviceRegistry :=
  { devices := [], licenses := [], stats := ⟨0, 0, 0, 0, 0⟩ }

/-! ## Time -/

/-- Largest `time.Duration` (int64 nanoseconds). -/
def maxDuration : Int := 9223372036854775807

/-- Smallest `time.Duration`. -/
def minDuration : Int := -9223372036854775808

/-- One `time.Minute` in nanoseconds. -/
def Minute : Int := 60000000000

/-- `t.Sub(u)`: the duration `t - u`, saturated to the Duration range. -/
def timeSub (t u : Int) : Int :=
  if t - u > maxDuration then maxDuration
  else if t - u < minDuration then minDuration
  else t - u

/-- `time.Since(t)` evaluated at clock reading `now`. -/
def timeSince (now t : Int) : Int := timeSub now t

/-! ## DeviceRegistry operations (model/device.go) -/

/-- Register (device.go 51-72). The second result of `LoadOrStore` is `loaded`;
the source binds it to a variable called `isNew` for the device map and to
`licenseExists` for the license map. -/
def Register (r : DeviceRegistry) (now : Int) (device : Device) : DeviceRegistry :=
  let device := { device with LastSeen := now }
  let (devices1, _, isNew) := LoadOrStore r.devices device.DeviceID device
  let devices2 := if isNew then devices1 else Store devices1 device.DeviceID device
  let stats1 :=
    if isNew then { r.stats with TotalDevices := r.stats.TotalDevices + 1 } else r.stats
  let (licenses1, _, licenseExists) :=
    LoadOrStore r.licenses device.LicenseCode device.DeviceID
  let licenses2 :=
    if !licenseExists then licenses1 else Store licenses1 device.LicenseCode device.DeviceID
  let stats2 :=
    if !licenseExists then { stats1 with TotalLicenses := stats1.TotalLicenses + 1 } else stats1
  { devices := devices2, licenses := licenses2,
    stats := { stats2 with Registrations := stats2.Registrations + 1 } }

/-- Heartbeat (device.go 74-87). -/
def Heartbeat (r : DeviceRegistry) (now : Int) (deviceID : String) : DeviceRegistry × Bool :=
  match Load r.devices deviceID with
  | none => (r, false)
  | some device =>
    let device := { device with LastSeen := now }
    ({ r with devices := Store r.devices deviceID device,
              stats := { r.stats with Heartbeats := r.stats.Heartbeats + 1 } }, true)

/-- GetLicenseHolder (device.go 89-104): license -> device id -> record. -/
def GetLicenseHolder (r : DeviceRegistry) (licenseCode : String) :
    DeviceRegistry × Option Device :=
  match Load r.licenses licenseCode with
  | none => (r, none)
  | some deviceID =>
    match Load r.devices deviceID with
    | none => (r, none)
    | some device =>
      ({ r with stats := { r.stats with Queries := r.stats.Queries + 1 } }, some device)

/-- UpdateLicenseHolder (device.go 106-110). -/
def UpdateLicenseHolder (r : DeviceRegistry) (licenseCode deviceID : String) : DeviceRegistry :=
  { r with licenses := Store r.licenses licenseCode deviceID,
           stats := { r.stats with Registrations := r.stats.Registrations + 1 } }

/-- GetDevice (device.go 112-121). -/
def GetDevice (r : DeviceRegistry) (deviceID : String) : DeviceRegistry × Option Device :=
  match Load r.devices deviceID with
  | none => (r, none)
  | some device =>
    ({ r with stats := { r.stats with Queries := r.stats.Queries + 1 } }, some device)

/-- The callback of `r.devices.Range` in CleanupInactive (device.go 129-148),
applied to one visited entry; the accumulator is the registry and `count`. -/
def cleanupVisit (now timeout : Int) (acc : DeviceRegistry × Int)
    (entry : String × Device) : DeviceRegistry × Int :=
  let r := acc.1
  let deviceID := entry.1
  let device := entry.2
  if timeSub now device.LastSeen > timeout then
    let devices := Delete r.devices deviceID
    let (licenses, stats) :=
      match Load r.licenses device.LicenseCode with
      | some holderID =>
        if holderID = deviceID then
          (Delete r.licenses device.LicenseCode,
            { r.stats with TotalLicenses := r.stats.TotalLicenses - 1 })
        else (r.licenses, r.stats)
      | none => (r.licenses, r.stats)
    ({ devices := devices, licenses := licenses,
       stats := { stats with TotalDevices := stats.TotalDevices - 1 } }, acc.2 + 1)
  else acc

/-- CleanupInactive (device.go 123-151): Range visits every entry of the
device map once. -/
def CleanupInactive (r : DeviceRegistry) (now timeout : Int) : DeviceRegistry × Int :=
  r.devices.foldl (cleanupVisit now timeout) (r, 0)

/-! ## RegistryService (service/registry.go) -/

/-- `strings.Contains(s, substr)`: `substr` occurs in `s` at some offset. -/
def stringsContains (s substr : String) : Bool :=
  s.data.tails.any (fun t => substr.data.isPrefixOf t)

/-- Result of a service call: `nil` error, a returned error, or a run-time
panic (slice bounds out of range). -/
inductive Outcome where
  | nil
  | err (msg : String)
  | panic
  deriving DecidableEq, Repr

/-- `s[:n]` is in range. -/
def sliceInRange (s : String) (n : Nat) : Bool := decide (n ≤ s.utf8ByteSize)

/-- validateTokenData (registry.go 108-122); `none` is the nil error. -/
def validateTokenData (tokenData expectedLicense : String) : Option String :=
  if !stringsContains tokenData expectedLicense then some "token license code mismatch"
  else none

/-- validateTokenTransfer (registry.go 74-106); `none` is the nil error. The
registry is returned because the two reads count queries. -/
def validateTokenTransfer (r : DeviceRegistry) (now : Int) (transfer : TokenTransfer) :
    DeviceRegistry × Option String :=
  match GetLicenseHolder r transfer.LicenseCode with
  | (r1, none) => (r1, some ("license not found: " ++ transfer.LicenseCode))
  | (r1, some currentHolder) =>
    if currentHolder.DeviceID ≠ transfer.FromDevice then
      (r1, some ("device " ++ transfer.FromDevice ++ " does not hold license " ++
        transfer.LicenseCode ++ " (current holder: " ++ currentHolder.DeviceID ++ ")"))
    else
      match GetDevice r1 transfer.ToDevice with
      | (r2, none) => (r2, some ("target device not registered: " ++ transfer.ToDevice))
      | (r2, some toDevice) =>
        if timeSince now toDevice.LastSeen > 10 * Minute then
          (r2, some ("target device not recently active: " ++ transfer.ToDevice))
        else if transfer.TokenData ≠ "" then
          match validateTokenData transfer.TokenData transfer.LicenseCode with
          | some err => (r2, some ("token validation failed: " ++ err))
          | none => (r2, none)
        else (r2, none)

/-- RequestTokenTransfer (registry.go 57-72). The first statement logs
`FromDevice[:16]`, `ToDevice[:16]` and `TokenID[:16]`, which panics when one of
them is shorter than 16 bytes. -/
def RequestTokenTransfer (r : DeviceRegistry) (now : Int) (transfer : TokenTransfer) :
    DeviceRegistry × Outcome :=
  if !(sliceInRange transfer.FromDevice 16 && sliceInRange transfer.ToDevice 16 &&
      sliceInRange transfer.TokenID 16) then (r, Outcome.panic)
  else
    match validateTokenTransfer r now transfer with
    | (r1, some err) => (r1, Outcome.err err)
    | (r1, none) =>
      (UpdateLicenseHolder r1 transfer.LicenseCode transfer.ToDevice, Outcome.nil)

/-- RegisterDevice (registry.go 29-35): Register, then log `DeviceID[:16]`. -/
def RegisterDevice (r : DeviceRegistry) (now : Int) (device : Device) :
    DeviceRegistry × Outcome :=
  let r1 := Register r now device
  if !sliceInRange device.DeviceID 16 then (r1, Outcome.panic) else (r1, Outcome.nil)

/-- DeviceHeartbeat (registry.go 37-40). -/
def DeviceHeartbeat (r : DeviceRegistry) (now : Int) (deviceID : String) :
    DeviceRegistry × Bool :=
  Heartbeat r now deviceID

/-! ## Sequential executions -/

/-- One call made on the registry. -/
inductive Op where
  | register (device : Device)
  | heartbeat (deviceID : String)
  | getDevice (deviceID : String)
  | getLicenseHolder (licenseCode : String)
  | transfer (transfer : TokenTransfer)
  | cleanup (timeout : Int)
  deriving DecidableEq, Repr

/-- The registry after one call made at clock reading `now`. -/
def step (r : DeviceRegistry) (now : Int) : Op → DeviceRegistry
  | Op.register device => Register r now device
  | Op.heartbeat deviceID => (Heartbeat r now deviceID).1
  | Op.getDevice deviceID => (GetDevice r deviceID).1
  | Op.getLicenseHolder licenseCode => (GetLicenseHolder r licenseCode).1
  | Op.transfer transfer => (RequestTokenTransfer r now transfer).1
  | Op.cleanup timeout => (CleanupInactive r now timeout).1

/-- Registries reachable from the empty one by a sequence of calls. -/
inductive Reachable : DeviceRegistry → Prop where
  | init : Reachable NewDeviceRegistry
  | next {r : DeviceRegistry} (now : Int) (op : Op) : Reachable r → Reachable (step r now op)

/-- The device id of the holder that GetLicenseHolder reports, if any. -/
def holderOf (r : DeviceRegistry) (licenseCode : String) : Option String :=
  (GetLicenseHolder r licenseCode).2.map Device.DeviceID

/-- Every device record is stored under its own device id. -/
def KeysMatch (r : DeviceRegistry) : Prop :=
  ∀ e ∈ r.devices, e.2.DeviceID = e.1

instance (r : DeviceRegistry) : Decidable (KeysMatch r) := by
  unfold KeysMatch
  infer_instance

/-- Every key occurs once in each map and every device record is stored under
its own device id. -/
def WellFormed (r : DeviceRegistry) : Prop :=
  (r.devices.map Prod.fst).Nodup ∧ (r.licenses.map Prod.fst).Nodup ∧ KeysMatch r

instance (r : DeviceRegistry) : Decidable (WellFormed r) := by
  unfold WellFormed
  infer_instance

/-! ## Sample data for the concrete evaluations -/

/-- A device id of 19 bytes. -/
def idA : String := "device-aaaaaaaaaaaa"

/-- A second device id of 19 bytes. -/
def idB : String := "device-bbbbbbbbbbbb"

/-- A token id of 16 bytes. -/
def tok1 : String := "token-0000000001"

/-- Device `idA` registering license L1. -/
def devA : Device := ⟨idA, "L1", "10.0.0.1", 7001, 0⟩

/-- Device `idB` registering license L1. -/
def devB : Device := ⟨idB, "L1", "10.0.0.2", 7002, 0⟩

/-- Device `idA` registering again, now with license L2 and another address. -/
def devA2 : Device := ⟨idA, "L2", "10.0.0.9", 7009, 0⟩

/-- A third device id of 19 bytes. -/
def idC : String := "device-cccccccccccc"

/-- Device `idB` registering license L2. -/
def devBL2 : Device := ⟨idB, "L2", "10.0.0.2", 7002, 0⟩

/-- Device `idC` registering license L3. -/
def devC : Device := ⟨idC, "L3", "10.0.0.3", 7003, 0⟩

/-- Three registrations: `idA` at time 0, `idB` one nanosecond later and `idC`
two minutes later. -/
def sampleThree : DeviceRegistry :=
  Register (Register (Register NewDeviceRegistry 0 devA) 1 devB) (2 * Minute) devC

/-- Register(devA), Register(devBL2), then the admitted transfer of L1 from
`idA` to `idB`: `idB` holds L1 and L2 while its record carries L2. -/
def sampleTransferred : DeviceRegistry :=
  step (step (step NewDeviceRegistry 1 (Op.register devA)) 2 (Op.register devBL2)) 3
    (Op.transfer ⟨tok1, "", idA, idB, "L1", 0⟩)

/-! ## Request admission (handler/api.go) -/

/-- One `time.Second` in nanoseconds. -/
def Second : Int := 1000000000

/-- Modelled from the spec: the limiter is `golang.org/x/time/rate`, which is
not among the sources. It is a token bucket of size `burst`, initially full and
refilled at `limit` tokens per second. `tokens` counts billionths of a token,
so one elapsed nanosecond adds `limit` units and one admitted event takes
`Second` units, in exact arithmetic; `last` is the time of the last admitted
event. -/
structure Limiter where
  limit : Int
  burst : Int
  tokens : Int
  last : Int
  deriving DecidableEq, Repr

/-- Modelled from the spec: `rate.NewLimiter(limit, burst)`, a full bucket. -/
def NewLimiter (limit burst : Int) : Limiter :=
  { limit := limit, burst := burst, tokens := burst * Second, last := 0 }

/-- Modelled from the spec: the tokens in the bucket at time `now`, the stored
tokens plus the refill for the time elapsed since `last`, capped at the burst
size. -/
def Limiter.advance (lim : Limiter) (now : Int) : Int :=
  min (lim.burst * Second) (lim.tokens + max 0 (timeSub now lim.last) * lim.limit)

/-- Modelled from the spec: `lim.Allow()` at time `now`. When a whole token is
there it is taken and the event is admitted; otherwise the event is refused
and the bucket is left as it was. -/
def Limiter.Allow (lim : Limiter) (now : Int) : Limiter × Bool :=
  if Second ≤ lim.advance now then
    ({ lim with tokens := lim.advance now - Second, last := now }, true)
  else (lim, false)

/-- An HTTP response: status code and body. -/
structure Response where
  status : Nat
  body : String
  deriving DecidableEq, Repr

/-- A route handler applied to one request: it acts on the registry service at
the time the request is served and produces the response. -/
abbrev HandlerFunc := DeviceRegistry → Int → DeviceRegistry × Response

/-- APIHandler (api.go 16-22): the service, the limiter shared by all routes
and the request timeout. -/
structure APIHandler where
  service : DeviceRegistry
  limiter : Limiter
  reqTimeout : Int

/-- NewAPIHandler (api.go 24-36): 1000 requests per second, burst 2000, request
timeout five seconds. -/
def NewAPIHandler (service : DeviceRegistry) : APIHandler :=
  { service := service, limiter := NewLimiter 1000 2000, reqTimeout := 5 * Second }

/-- `http.Error(w, "Rate limit exceeded", http.StatusTooManyRequests)`. -/
def rateLimitExceeded : Response := ⟨429, "Rate limit exceeded\n"⟩

/-- The function rateLimitMiddleware returns (api.go 48-61), serving one request
at time `now`: when the limiter refuses, the response is 429 and `next` is not
called; otherwise `next` serves the request. The request deadline does not
interrupt the registry calls, which do not block. -/
def rateLimitMiddleware (h : APIHandler) (next : HandlerFunc) (now : Int) :
    APIHandler × Response :=
  match h.limiter.Allow now with
  | (limiter, false) => ({ h with limiter := limiter }, rateLimitExceeded)
  | (limiter, true) =>
    let (service, response) := next h.service now
    ({ h with service := service, limiter := limiter }, response)

/-- Requests served one after the other at the same clock reading, each by its
route handler wrapped in rateLimitMiddleware as SetupRoutes does for every
route (api.go 38-46). -/
def serveAt (h : APIHandler) (now : Int) : List HandlerFunc → APIHandler × List Response
  | [] => (h, [])
  | next :: rest =>
    let (h1, response) := rateLimitMiddleware h next now
    let (h2, responses) := serveAt h1 now rest
    (h2, response :: responses)

/-- The same handlers run on the registry service directly, with no limiter in
front. -/
def runHandlers (service : DeviceRegistry) (now : Int) :
    List HandlerFunc → DeviceRegistry × List Response
  | [] => (service, [])
  | next :: rest =>
    let (service1, response) := next service now
    let (service2, responses) := runHandlers service1 now rest
    (service2, response :: responses)

/-- A bucket with the limit and burst of NewAPIHandler that holds exactly `k`
whole tokens at time `t0`. -/
def HoldsTokens (t0 : Int) (k : Nat) (lim : Limiter) : Prop :=
  lim.limit = 1000 ∧ lim.burst = 2000 ∧ lim.advance t0 = (k : Int) * Second

/-- The time that refills one token at `limit` tokens per second. -/
def refillInterval (limit : Int) : Int := Second / limit

/-- A handler that registers `devA` and answers 200, used as a route handler
in the concrete evaluations. -/
def sampleHandler : HandlerFunc :=
  fun service now => ((RegisterDevice service now devA).1, ⟨200, "registered"⟩)

/-- The TotalLicenses counter equals the number of entries of the license
map. -/
def LicensesCounted (r : DeviceRegistry) : Prop :=
  r.stats.TotalLicenses = (r.licenses.length : Int)

instance (r : DeviceRegistry) : Decidable (LicensesCounted r) := by
  unfold LicensesCounted
  infer_instance

/-- Every license entry names a device whose record exists and carries that
license code. -/
def HolderLicenseMatch (r : DeviceRegistry) : Prop :=
  ∀ L id, Load r.licenses L = some id →
    ∃ d, Load r.devices id = some d ∧ d.LicenseCode = L

/-- The calls that keep holders under the license they registered: a Register
whose device id has no record yet or a record with the same license code, an
admitted transfer whose target is registered under the transferred license,
and every other call. -/
def KeepsLicense (r : DeviceRegistry) (now : Int) : Op → Prop
  | Op.register device =>
    ∀ old, Load r.devices device.DeviceID = some old → old.LicenseCode = device.LicenseCode
  | Op.transfer transfer =>
    (RequestTokenTransfer r now transfer).2 = Outcome.nil →
      ∀ t, Load r.devices transfer.ToDevice = some t → t.LicenseCode = transfer.LicenseCode
  | _ => True

/-- Registries reachable from the empty one by calls that keep holders under
the license they registered. -/
inductive ReachableKeeping : DeviceRegistry → Prop where
  | init : ReachableKeeping NewDeviceRegistry
  | next {r : DeviceRegistry} (now : Int) (op : Op) :
    ReachableKeeping r → KeepsLicense r now op → ReachableKeeping (step r now op)

/-! ## ComputeLicenseKeyHash (sdks/go/crypto/utils.go)

The string is its sequence of bytes, indexed from 0 as in Go. -/

/-- The sixteen bytes of "\nROOT_SIGNATURE:" that the loop compares one by
one. -/
def rootSignatureMarker : List Nat :=
  [10, 82, 79, 79, 84, 95, 83, 73, 71, 78, 65, 84, 85, 82, 69, 58]

/-- The condition of the `if` in the loop (utils.go 17-32) from index `i` on:
the bytes are compared left to right and the first mismatch ends the
conjunction; reading an index outside the string aborts (`none`). -/
def markerAt (s : List Nat) : Nat → List Nat → Option Bool
  | _, [] => some true
  | i, c :: rest =>
    match s[i]? with
    | none => none
    | some b => if b = c then markerAt s (i + 1) rest else some false

/-- The loop of ComputeLicenseKeyHash (utils.go 15-36) from index `i` on; the
result is `rootSigPos`, or `none` when an index is out of range. -/
def scanLoop (s : List Nat) (i : Nat) : Option Nat :=
  if (i : Int) < (s.length : Int) - 15 then
    match markerAt s i rootSignatureMarker with
    | none => none
    | some true => some i
    | some false => scanLoop s (i + 1)
  else some s.length
termination_by s.length - i
decreasing_by omega

/-- ComputeLicenseKeyHash (utils.go 10-45). `Sum256` is `sha256.Sum256`, whose
result is a `[32]byte`; `hash[:]` is its 32 bytes in order. -/
def ComputeLicenseKeyHash (Sum256 : List Nat → Fin 32 → Nat) (licensePublicKeyPEM : List Nat) :
    Option (List Nat) :=
  match scanLoop licensePublicKeyPEM 0 with
  | none => none
  | some rootSigPos =>
    let actualPublicKeyPEM :=
      if rootSigPos < licensePublicKeyPEM.length then licensePublicKeyPEM.take rootSigPos
      else licensePublicKeyPEM
    some (List.ofFn (Sum256 actualPublicKeyPEM))

/-- First-substring-index search (`strings.Index`): the least offset at which
`substr` starts in `s`, if there is one. -/
def stringsIndex : List Nat → List Nat → Option Nat
  | [], substr => if substr.isPrefixOf [] then some 0 else none
  | b :: rest, substr =>
    if substr.isPrefixOf (b :: rest) then some 0
    else (stringsIndex rest substr).map (fun p => p + 1)

/-! ## Route handlers and the response pool (handler/api.go)

The decoded JSON body of a request is an argument of the handler (`none` when
`Decode` fails); the JSON encoder of the response is a parameter. -/

/-- A value stored in a response map (`interface{}`); the handlers store
booleans, strings and integers. -/
inductive Value where
  | bool (b : Bool)
  | str (s : String)
  | int (n : Int)
  deriving DecidableEq, Repr

/-- A response map, `map[string]interface{}`. -/
abbrev ResponseMap := List (String × Value)

/-- The maps held by `responsePool`. -/
abbrev ResponsePool := List ResponseMap

/-- The loop of putResponseMap (api.go 77-79), `for k := range m { delete(m, k) }`:
every key the map has when the loop starts is deleted. -/
def clearMap (m : ResponseMap) : ResponseMap :=
  m.foldl (fun acc e => Delete acc e.1) m

/-- Function getResponseMap (api.go 70-73): a map taken out of the pool, or a
new empty map from `New` when the pool has none. -/
def getResponseMap (pool : ResponsePool) : ResponseMap × ResponsePool :=
  match pool with
  | [] => ([], [])
  | m :: rest => (m, rest)

/-- Function putResponseMap (api.go 75-81): clear the map, then put it in the
pool. -/
def putResponseMap (pool : ResponsePool) (m : ResponseMap) : ResponsePool :=
  clearMap m :: pool

/-- What the client gets from a handler: a response, or nothing when the
handler aborted with a run-time panic. -/
inductive Reply where
  | sent (response : Response)
  | aborted
  deriving DecidableEq, Repr

/-- Function writeJSONResponse (api.go 63-68): status 200 and the encoded
data. -/
def writeJSONResponse {α : Type} (encode : α → String) (data : α) : Response :=
  ⟨200, encode data⟩

/-- Function handleRegister (api.go 111-145). -/
def handleRegister (encode : ResponseMap → String) (service : DeviceRegistry)
    (pool : ResponsePool) (now : Int) (method remoteAddr : String) (body : Option Device) :
    DeviceRegistry × ResponsePool × Reply :=
  if method ≠ "POST" then (service, pool, Reply.sent ⟨405, "Method not allowed\n"⟩)
  else
    match body with
    | none => (service, pool, Reply.sent ⟨400, "Invalid request body\n"⟩)
    | some device =>
      let device := if device.PublicIP = "" then { device with PublicIP := remoteAddr } else device
      match RegisterDevice service now device with
      | (service1, Outcome.panic) => (service1, pool, Reply.aborted)
      | (service1, Outcome.err msg) => (service1, pool, Reply.sent ⟨500, msg ++ "\n"⟩)
      | (service1, Outcome.nil) =>
        let (response, pool1) := getResponseMap pool
        let response := Store response "success" (Value.bool true)
        let response := Store response "message" (Value.str "Device registered successfully")
        let response := Store response "device_id" (Value.str device.DeviceID)
        (service1, putResponseMap pool1 response, Reply.sent (writeJSONResponse encode response))

/-- The license code handleGetLicenseHolder takes from the URL path (api.go
180-185): `Path[len("/api/licenses/"):]`, less a trailing "/holder" when more
than seven bytes are left. The prefix and "/holder" are ASCII, so the byte
slices are taken on characters. -/
def licenseCodeOfPath (path : String) : String :=
  let licenseCode := String.mk (path.data.drop 14)
  if licenseCode.utf8ByteSize > 7 ∧ "/holder".data.isSuffixOf licenseCode.data = true then
    String.mk (licenseCode.data.take (licenseCode.data.length - 7))
  else licenseCode

/-- Function handleGetLicenseHolder (api.go 173-197). A path shorter than the
route prefix makes the first slice abort. -/
def handleGetLicenseHolder (encode : Device → String) (service : DeviceRegistry)
    (method path : String) : DeviceRegistry × Reply :=
  if method ≠ "GET" then (service, Reply.sent ⟨405, "Method not allowed\n"⟩)
  else if path.utf8ByteSize < 14 then (service, Reply.aborted)
  else
    match GetLicenseHolder service (licenseCodeOfPath path) with
    | (service1, none) => (service1, Reply.sent ⟨404, "License not found\n"⟩)
    | (service1, some device) => (service1, Reply.sent (writeJSONResponse encode device))

/-- Function handleTokenTransfer (api.go 199-226). -/
def handleTokenTransfer (encode : ResponseMap → String) (service : DeviceRegistry)
    (pool : ResponsePool) (now : Int) (method : String) (body : Option TokenTransfer) :
    DeviceRegistry × ResponsePool × Reply :=
  if method ≠ "POST" then (service, pool, Reply.sent ⟨405, "Method not allowed\n"⟩)
  else
    match body with
    | none => (service, pool, Reply.sent ⟨400, "Invalid request body\n"⟩)
    | some transfer =>
      match RequestTokenTransfer service now transfer with
      | (service1, Outcome.panic) => (service1, pool, Reply.aborted)
      | (service1, Outcome.err msg) => (service1, pool, Reply.sent ⟨500, msg ++ "\n"⟩)
      | (service1, Outcome.nil) =>
        let (response, pool1) := getResponseMap pool
        let response := Store response "success" (Value.bool true)
        let response := Store response "message" (Value.str "Transfer request recorded")
        (service1, putResponseMap pool1 response, Reply.sent (writeJSONResponse encode response))

/-- Pools reachable from the empty pool by getResponseMap and putResponseMap,
the only two functions that touch `responsePool`. -/
inductive ReachablePool : ResponsePool → Prop where
  | init : ReachablePool []
  | get {pool : ResponsePool} : ReachablePool pool → ReachablePool (getResponseMap pool).2
  | put {pool : ResponsePool} (m : ResponseMap) :
    ReachablePool pool → ReachablePool (putResponseMap pool m)

/-- A stand-in for the JSON encoder in the concrete evaluations. -/
def sampleEncode {α : Type} : α → String := fun _ => "json"

/-! ## Routing to the holder route (api.go 44, main.go 36-43)

The routes are registered on an `http.ServeMux`. The path is the URL path of
the request as sent, without percent-escapes. -/

/-- The elements of a URL path: the pieces between its slashes. -/
def pathElements : List Char → List (List Char)
  | [] => [[]]
  | c :: rest =>
    if c = '/' then [] :: pathElements rest
    else
      match pathElements rest with
      | [] => [[c]]
      | e :: es => (c :: e) :: es

/-- Whether the path is in the canonical form `http.ServeMux` requires, that
is, `cleanPath` of net/http returns it unchanged: it starts with a slash, no
element but the last is empty (no repeated slash) and no element is "." or
"..". -/
def isCleanPath (path : String) : Bool :=
  match pathElements path.data with
  | [] :: e :: es =>
    (e :: es).dropLast.all (fun x => decide (x ≠ [])) &&
      (e :: es).all (fun x => decide (x ≠ ['.'] ∧ x ≠ ['.', '.']))
  | _ => false

/-- What the mux does with a request, as far as the holder route goes. -/
inductive Routed where
  | redirected
  | handled (result : DeviceRegistry × Reply)
  | elsewhere
  deriving DecidableEq, Repr

/-- The mux of SetupRoutes on a request admitted by the limiter, for the
pattern "/api/licenses/" (api.go 44). A request other than CONNECT whose path
is not canonical is answered by the mux itself with a redirect (301) to the
cleaned path and no handler runs; a canonical path that begins with
"/api/licenses/" goes to handleGetLicenseHolder; other paths belong to the
other patterns. -/
def serveLicensesRoute (encode : Device → String) (service : DeviceRegistry)
    (method path : String) : Routed :=
  if method ≠ "CONNECT" ∧ isCleanPath path = false then Routed.redirected
  else if "/api/licenses/".data.isPrefixOf path.data = true then
    Routed.handled (handleGetLicenseHolder encode service method path)
  else Routed.elsewhere

/-- A registry in which `idA` holds the license with the empty code and `idB`
the license "a//b". -/
def sampleOddCodes : DeviceRegistry :=
  Register (Register NewDeviceRegistry 1 ⟨idA, "", "10.0.0.1", 7001, 0⟩) 2
    ⟨idB, "a//b", "10.0.0.2", 7002, 0⟩

namespace SyncMap

theorem Load_Store_self {V : Type} (m : List (String × V)) (k : String) (v : V) :
    Load (Store m k v) k = some v := by
  induction m with
  | nil => simp [Store, Load]
  | cons e rest ih =>
    obtain ⟨k', v'⟩ := e
    by_cases h : k' = k
    · simp [Store, Load, h]
    · simp [Store, Load, h, ih]

theorem Load_Store_ne {V : Type} (m : List (String × V)) (k k₂ : String) (v : V)
    (hne : k₂ ≠ k) : Load (Store m k v) k₂ = Load m k₂ := by
  induction m with
  | nil => simp [Store, Load, Ne.symm hne]
  | cons e rest ih =>
    obtain ⟨k', v'⟩ := e
    by_cases h : k' = k
    · subst h
      simp [Store, Load, Ne.symm hne]
    · by_cases h2 : k' = k₂
      · subst h2
        simp [Store, Load, h]
      · simp [Store, Load, h, h2, ih]

theorem Load_Delete_self {V : Type} (m : List (String × V)) (k : String) :
    Load (Delete m k) k = none := by
  induction m with
  | nil => simp [Delete, Load]
  | cons e rest ih =>
    obtain ⟨k', v'⟩ := e
    by_cases h : k' = k
    · simp [Delete, h, ih]
    · simp [Delete, h, Load, ih]

theorem Load_Delete_ne {V : Type} (m : List (String × V)) (k k₂ : String)
    (hne : k₂ ≠ k) : Load (Delete m k) k₂ = Load m k₂ := by
  induction m with
  | nil => simp [Delete, Load]
  | cons e rest ih =>
    obtain ⟨k', v'⟩ := e
    by_cases h : k' = k
    · subst h
      simp [Delete, Load, Ne.symm hne, ih]
    · by_cases h2 : k' = k₂
      · subst h2
        simp [Delete, h, Load]
      · simp [Delete, h, h2, Load, ih]

theorem Load_eq_some_mem {V : Type} (m : List (String × V)) (k : String) (v : V)
    (h : Load m k = some v) : (k, v) ∈ m := by
  induction m with
  | nil => simp [Load] at h
  | cons e rest ih =>
    obtain ⟨k', v'⟩ := e
    by_cases hk : k' = k
    · simp [Load, hk] at h
      simp [hk, h]
    · simp [Load, hk] at h
      exact List.mem_cons_of_mem _ (ih h)

theorem mem_Load_of_nodup {V : Type} (m : List (String × V)) (k : String) (v : V)
    (hn : (m.map Prod.fst).Nodup) (h : (k, v) ∈ m) : Load m k = some v := by
  induction m with
  | nil => simp at h
  | cons e rest ih =>
    obtain ⟨k', v'⟩ := e
    simp only [List.map_cons, List.nodup_cons] at hn
    rcases List.mem_cons.mp h with heq | hmem
    · cases heq
      simp [Load]
    · have hk : k' ≠ k := by
        intro hk
        subst hk
        exact hn.1 (List.mem_map.mpr ⟨(k', v), hmem, rfl⟩)
      simp [Load, hk, ih hn.2 hmem]

theorem keys_Store {V : Type} (m : List (String × V)) (k : String) (v : V) :
    (Store m k v).map Prod.fst =
      if k ∈ m.map Prod.fst then m.map Prod.fst else m.map Prod.fst ++ [k] := by
  induction m with
  | nil => simp [Store]
  | cons e rest ih =>
    obtain ⟨k', v'⟩ := e
    by_cases h : k' = k
    · simp [Store, h]
    · have h' : ¬ k = k' := fun h2 => h h2.symm
      simp only [Store, h, if_false, List.map_cons, ih, List.mem_cons, h', false_or]
      split_ifs <;> simp

theorem nodup_Store {V : Type} (m : List (String × V)) (k : String) (v : V)
    (hn : (m.map Prod.fst).Nodup) : ((Store m k v).map Prod.fst).Nodup := by
  rw [keys_Store]
  split_ifs with h
  · exact hn
  · exact List.Nodup.append hn (List.nodup_singleton k) (by simpa using h)

theorem Delete_sublist {V : Type} (m : List (String × V)) (k : String) :
    List.Sublist (Delete m k) m := by
  induction m with
  | nil => simp [Delete]
  | cons e rest ih =>
    obtain ⟨k', v'⟩ := e
    by_cases h : k' = k
    · simp only [Delete, h, if_true]
      exact List.Sublist.cons _ ih
    · simp only [Delete, h, if_false]
      exact List.Sublist.cons₂ _ ih

theorem nodup_Delete {V : Type} (m : List (String × V)) (k : String)
    (hn : (m.map Prod.fst).Nodup) : ((Delete m k).map Prod.fst).Nodup :=
  List.Nodup.sublist (List.Sublist.map _ (Delete_sublist m k)) hn

theorem mem_Store {V : Type} (m : List (String × V)) (k : String) (v : V) (e : String × V)
    (h : e ∈ Store m k v) : e = (k, v) ∨ e ∈ m := by
  induction m with
  | nil => simpa [Store] using h
  | cons x rest ih =>
    obtain ⟨k', v'⟩ := x
    by_cases hk : k' = k
    · simp only [Store, hk, if_true, List.mem_cons] at h
      rcases h with h | h
      · exact Or.inl h
      · exact Or.inr (List.mem_cons_of_mem _ h)
    · simp only [Store, hk, if_false, List.mem_cons] at h
      rcases h with h | h
      · exact Or.inr (by simp [h])
      · rcases ih h with h2 | h2
        · exact Or.inl h2
        · exact Or.inr (List.mem_cons_of_mem _ h2)

theorem mem_Delete {V : Type} (m : List (String × V)) (k : String) (e : String × V)
    (h : e ∈ Delete m k) : e ∈ m :=
  (Delete_sublist m k).subset h

end SyncMap

/-! ## Reads leave the maps alone -/

theorem GetDevice_snd (r : DeviceRegistry) (deviceID : String) :
    (GetDevice r deviceID).2 = Load r.devices deviceID := by
  unfold GetDevice
  cases Load r.devices deviceID <;> rfl

theorem GetDevice_maps (r : DeviceRegistry) (deviceID : String) :
    (GetDevice r deviceID).1.devices = r.devices ∧
      (GetDevice r deviceID).1.licenses = r.licenses := by
  unfold GetDevice
  cases Load r.devices deviceID <;> exact ⟨rfl, rfl⟩

theorem GetLicenseHolder_snd (r : DeviceRegistry) (licenseCode : String) :
    (GetLicenseHolder r licenseCode).2 =
      (Load r.licenses licenseCode).bind (Load r.devices) := by
  unfold GetLicenseHolder
  cases Load r.licenses licenseCode with
  | none => rfl
  | some deviceID =>
    simp only [Option.some_bind]
    cases Load r.devices deviceID <;> rfl

theorem GetLicenseHolder_maps (r : DeviceRegistry) (licenseCode : String) :
    (GetLicenseHolder r licenseCode).1.devices = r.devices ∧
      (GetLicenseHolder r licenseCode).1.licenses = r.licenses := by
  unfold GetLicenseHolder
  cases Load r.licenses licenseCode with
  | none => exact ⟨rfl, rfl⟩
  | some deviceID =>
    simp only
    cases Load r.devices deviceID <;> exact ⟨rfl, rfl⟩

theorem validateTokenTransfer_maps (r : DeviceRegistry) (now : Int) (q : TokenTransfer) :
    (validateTokenTransfer r now q).1.devices = r.devices ∧
      (validateTokenTransfer r now q).1.licenses = r.licenses := by
  unfold validateTokenTransfer GetLicenseHolder GetDevice
  cases hl : Load r.licenses q.LicenseCode with
  | none => exact ⟨rfl, rfl⟩
  | some id =>
    cases hd : Load r.devices id with
    | none => simp [hd]
    | some h =>
      by_cases hf : h.DeviceID = q.FromDevice
      · cases ht : Load r.devices q.ToDevice with
        | none => simp [hd, hf, ht]
        | some t =>
          by_cases hact : 10 * Minute < timeSince now t.LastSeen
          · simp [hd, hf, ht, hact]
          · by_cases hdata : q.TokenData = ""
            · simp [hd, hf, ht, hact, hdata]
            · cases hv : validateTokenData q.TokenData q.LicenseCode <;>
                simp [hd, hf, ht, hact, hdata, hv]
      · simp [hd, hf]

/-! ## What Register leaves in the maps -/

theorem Store_Store_self {V : Type} (m : List (String × V)) (k : String) (v : V) :
    Store (Store m k v) k v = Store m k v := by
  induction m with
  | nil => simp [Store]
  | cons e rest ih =>
    obtain ⟨k', v'⟩ := e
    by_cases h : k' = k
    · simp [Store, h]
    · simp [Store, h, ih]

theorem Register_licenses (r : DeviceRegistry) (now : Int) (d : Device) :
    (Register r now d).licenses = Store r.licenses d.LicenseCode d.DeviceID := by
  unfold Register LoadOrStore
  cases h : Load r.licenses d.LicenseCode <;> simp [h]

theorem Register_devices (r : DeviceRegistry) (now : Int) (d : Device) :
    (Register r now d).devices =
      match Load r.devices d.DeviceID with
      | some _ => r.devices
      | none => Store r.devices d.DeviceID { d with LastSeen := now } := by
  unfold Register LoadOrStore
  cases h : Load r.devices d.DeviceID <;> simp [h, Store_Store_self]

theorem Register_stats (r : DeviceRegistry) (now : Int) (d : Device) :
    (Register r now d).stats =
      { TotalDevices :=
          r.stats.TotalDevices + (if (Load r.devices d.DeviceID).isSome then 1 else 0),
        TotalLicenses :=
          r.stats.TotalLicenses + (if (Load r.licenses d.LicenseCode).isSome then 0 else 1),
        Registrations := r.stats.Registrations + 1,
        Heartbeats := r.stats.Heartbeats,
        Queries := r.stats.Queries } := by
  unfold Register LoadOrStore
  cases h : Load r.devices d.DeviceID <;> cases h2 : Load r.licenses d.LicenseCode <;>
    simp [h, h2]

/-! ## Time and substring facts -/

theorem timeSub_gt_iff (now t d : Int) (hd1 : minDuration ≤ d) (hd2 : d < maxDuration) :
    timeSub now t > d ↔ now - t > d := by
  unfold timeSub
  unfold maxDuration minDuration at *
  split_ifs <;> omega

theorem timeSince_tenMinutes (now t : Int) :
    timeSince now t > 10 * Minute ↔ now - t > 10 * Minute :=
  timeSub_gt_iff now t (10 * Minute) (by unfold minDuration Minute; omega)
    (by unfold maxDuration Minute; omega)

theorem stringsContains_iff (s substr : String) :
    stringsContains s substr = true ↔ substr.data <:+: s.data := by
  unfold stringsContains
  rw [List.any_eq_true, List.infix_iff_prefix_suffix]
  constructor
  · rintro ⟨t, ht, hp⟩
    exact ⟨t, List.isPrefixOf_iff_prefix.mp hp, (List.mem_tails _ _).mp ht⟩
  · rintro ⟨t, hp, ht⟩
    exact ⟨t, (List.mem_tails _ _).mpr ht, List.isPrefixOf_iff_prefix.mpr hp⟩

/-! ## Transfer admission -/

/-- The error validateTokenTransfer returns, by the outcome of each check in
source order. -/
theorem validateTokenTransfer_snd (r : DeviceRegistry) (now : Int) (q : TokenTransfer) :
    (validateTokenTransfer r now q).2 =
      match (Load r.licenses q.LicenseCode).bind (Load r.devices) with
      | none => some ("license not found: " ++ q.LicenseCode)
      | some h =>
        if h.DeviceID ≠ q.FromDevice then
          some ("device " ++ q.FromDevice ++ " does not hold license " ++ q.LicenseCode ++
            " (current holder: " ++ h.DeviceID ++ ")")
        else
          match Load r.devices q.ToDevice with
          | none => some ("target device not registered: " ++ q.ToDevice)
          | some t =>
            if now - t.LastSeen > 10 * Minute then
              some ("target device not recently active: " ++ q.ToDevice)
            else if q.TokenData ≠ "" ∧ ¬ q.LicenseCode.data <:+: q.TokenData.data then
              some "token validation failed: token license code mismatch"
            else none := by
  unfold validateTokenTransfer GetLicenseHolder GetDevice validateTokenData
  cases hl : Load r.licenses q.LicenseCode with
  | none => simp
  | some id =>
    cases hd : Load r.devices id with
    | none => simp [hd]
    | some h =>
      by_cases hf : h.DeviceID = q.FromDevice
      · cases ht : Load r.devices q.ToDevice with
        | none => simp [hd, hf, ht]
        | some t =>
          have hlt := timeSince_tenMinutes now t.LastSeen
          by_cases hact : now - t.LastSeen > 10 * Minute
          · have h1 : 10 * Minute < timeSince now t.LastSeen := hlt.mpr hact
            have h2 : 10 * Minute < now - t.LastSeen := hact
            simp [hd, hf, ht, h1, h2]
          · have h1 : ¬ 10 * Minute < timeSince now t.LastSeen := fun h => hact (hlt.mp h)
            have h2 : ¬ 10 * Minute < now - t.LastSeen := hact
            by_cases hdata : q.TokenData = ""
            · simp [hd, hf, ht, h1, h2, hdata]
            · by_cases hc : stringsContains q.TokenData q.LicenseCode = true
              · have := (stringsContains_iff _ _).mp hc
                simp [hd, hf, ht, h1, h2, hdata, hc, this]
              · have hc2 : ¬ q.LicenseCode.data <:+: q.TokenData.data :=
                  fun h => hc ((stringsContains_iff _ _).mpr h)
                simp [hd, hf, ht, h1, h2, hdata, hc, hc2]
      · simp [hd, hf]

theorem validateTokenTransfer_eq_none_iff (r : DeviceRegistry) (now : Int) (q : TokenTransfer) :
    (validateTokenTransfer r now q).2 = none ↔
      (∃ id h, Load r.licenses q.LicenseCode = some id ∧ Load r.devices id = some h ∧
        h.DeviceID = q.FromDevice) ∧
      (∃ t, Load r.devices q.ToDevice = some t ∧ now - t.LastSeen ≤ 10 * Minute) ∧
      (q.TokenData = "" ∨ q.LicenseCode.data <:+: q.TokenData.data) := by
  rw [validateTokenTransfer_snd]
  cases hl : Load r.licenses q.LicenseCode with
  | none => simp
  | some id =>
    cases hd : Load r.devices id with
    | none => simp [hd]
    | some h =>
      by_cases hf : h.DeviceID = q.FromDevice
      · cases ht : Load r.devices q.ToDevice with
        | none => simp [hd, hf, ht]
        | some t =>
          by_cases hact : now - t.LastSeen > 10 * Minute
          · have h2 : ¬ now - t.LastSeen ≤ 10 * Minute := by omega
            simp only [Option.some_bind, hd, hf, ne_eq, not_true_eq_false, if_false, hact,
              if_true, Option.some.injEq, exists_eq_left', and_true, true_and, h2, false_and,
              exists_eq_left]
            simp
          · have h2 : now - t.LastSeen ≤ 10 * Minute := by omega
            by_cases hdata : q.TokenData = ""
            · simp [hd, hf, hact, hdata]
              omega
            · by_cases hc : q.LicenseCode.data <:+: q.TokenData.data
              · simp [hd, hf, hact, hdata, hc]
                omega
              · simp [hd, hf, hact, h2, hdata, hc]
      · simp [hd, hf]

/-! ## RequestTokenTransfer, by outcome -/

theorem RequestTokenTransfer_nil_iff (r : DeviceRegistry) (now : Int) (q : TokenTransfer) :
    (RequestTokenTransfer r now q).2 = Outcome.nil ↔
      (sliceInRange q.FromDevice 16 && sliceInRange q.ToDevice 16 &&
        sliceInRange q.TokenID 16) = true ∧ (validateTokenTransfer r now q).2 = none := by
  unfold RequestTokenTransfer
  by_cases hs : (sliceInRange q.FromDevice 16 && sliceInRange q.ToDevice 16 &&
      sliceInRange q.TokenID 16) = true
  · rcases hv : validateTokenTransfer r now q with ⟨r1, _ | err⟩ <;> simp [hs]
  · simp [hs]

theorem RequestTokenTransfer_devices (r : DeviceRegistry) (now : Int) (q : TokenTransfer) :
    (RequestTokenTransfer r now q).1.devices = r.devices := by
  have hv := validateTokenTransfer_maps r now q
  unfold RequestTokenTransfer
  split_ifs
  · rfl
  · rcases hv2 : validateTokenTransfer r now q with ⟨r1, _ | err⟩
    · rw [hv2] at hv
      exact hv.1
    · rw [hv2] at hv
      exact hv.1

theorem RequestTokenTransfer_licenses (r : DeviceRegistry) (now : Int) (q : TokenTransfer) :
    (RequestTokenTransfer r now q).1.licenses =
      if (RequestTokenTransfer r now q).2 = Outcome.nil then
        Store r.licenses q.LicenseCode q.ToDevice
      else r.licenses := by
  have hv := validateTokenTransfer_maps r now q
  unfold RequestTokenTransfer
  split_ifs with h1 h2 h3
  · simp at h2
  · rfl
  · rcases hv2 : validateTokenTransfer r now q with ⟨r1, _ | err⟩
    · rw [hv2] at hv
      simp only [UpdateLicenseHolder]
      rw [hv.2]
    · rw [hv2] at h3
      simp at h3
  · rcases hv2 : validateTokenTransfer r now q with ⟨r1, _ | err⟩
    · rw [hv2] at h3
      simp at h3
    · rw [hv2] at hv
      exact hv.2

/-- A transfer that is not admitted (error or abort) leaves both maps alone. -/
theorem RequestTokenTransfer_rejected_maps (r : DeviceRegistry) (now : Int) (q : TokenTransfer)
    (h : (RequestTokenTransfer r now q).2 ≠ Outcome.nil) :
    (RequestTokenTransfer r now q).1.devices = r.devices ∧
      (RequestTokenTransfer r now q).1.licenses = r.licenses := by
  refine ⟨RequestTokenTransfer_devices r now q, ?_⟩
  rw [RequestTokenTransfer_licenses, if_neg h]

/-- Past its log statement RequestTokenTransfer returns what validateTokenTransfer
returns. -/
theorem RequestTokenTransfer_snd (r : DeviceRegistry) (now : Int) (q : TokenTransfer)
    (hs : (sliceInRange q.FromDevice 16 && sliceInRange q.ToDevice 16 &&
      sliceInRange q.TokenID 16) = true) :
    (RequestTokenTransfer r now q).2 =
      match (validateTokenTransfer r now q).2 with
      | some err => Outcome.err err
      | none => Outcome.nil := by
  unfold RequestTokenTransfer
  rcases hv : validateTokenTransfer r now q with ⟨r1, _ | err⟩ <;> simp [hs]

/-- When one of the three logged strings is shorter than 16 bytes
RequestTokenTransfer aborts and the registry is untouched. -/
theorem RequestTokenTransfer_abort (r : DeviceRegistry) (now : Int) (q : TokenTransfer)
    (hs : (sliceInRange q.FromDevice 16 && sliceInRange q.ToDevice 16 &&
      sliceInRange q.TokenID 16) = false) :
    RequestTokenTransfer r now q = (r, Outcome.panic) := by
  unfold RequestTokenTransfer
  simp [hs]

/-! ## Register and the invariant -/

theorem Register_Load_self (r : DeviceRegistry) (now : Int) (d : Device) :
    Load (Register r now d).devices d.DeviceID =
      match Load r.devices d.DeviceID with
      | some old => some old
      | none => some { d with LastSeen := now } := by
  rw [Register_devices]
  cases h : Load r.devices d.DeviceID with
  | none => simp [Load_Store_self]
  | some old => simp [h]

theorem Register_Load_ne (r : DeviceRegistry) (now : Int) (d : Device) (k : String)
    (hk : k ≠ d.DeviceID) : Load (Register r now d).devices k = Load r.devices k := by
  rw [Register_devices]
  cases h : Load r.devices d.DeviceID with
  | none => simp [Load_Store_ne _ _ _ _ hk]
  | some old => rfl

theorem Register_KeysMatch (r : DeviceRegistry) (now : Int) (d : Device)
    (h : KeysMatch r) : KeysMatch (Register r now d) := by
  unfold KeysMatch
  rw [Register_devices]
  cases hl : Load r.devices d.DeviceID with
  | some old => exact h
  | none =>
    intro e he
    rcases mem_Store _ _ _ _ he with heq | hmem
    · rw [heq]
    · exact h e hmem

theorem KeysMatch_Load (r : DeviceRegistry) (h : KeysMatch r) (k : String) (d : Device)
    (hl : Load r.devices k = some d) : d.DeviceID = k :=
  h (k, d) (Load_eq_some_mem _ _ _ hl)

/-! ## Transfer admission and registration: the properties -/

/-- C1. Transfer admission is exact: validateTokenTransfer returns the nil
error if and only if (i) the license map sends the license code to a device id
whose record exists and carries device id `from_device`, (ii) and (iii) a
record for `to_device` exists with `now - last_seen ≤ 10 minutes` (the
boundary is accepted), and (iv) `token_data` is empty or contains the license
code as a substring. -/
theorem validateTokenTransfer_accepts_iff (r : DeviceRegistry) (now : Int)
    (q : TokenTransfer) :
    (validateTokenTransfer r now q).2 = none ↔
      (∃ id h, Load r.licenses q.LicenseCode = some id ∧ Load r.devices id = some h ∧
        h.DeviceID = q.FromDevice) ∧
      (∃ t, Load r.devices q.ToDevice = some t ∧ now - t.LastSeen ≤ 10 * Minute) ∧
      (q.TokenData = "" ∨ q.LicenseCode.data <:+: q.TokenData.data) :=
  validateTokenTransfer_eq_none_iff r now q

/-- C2. When RequestTokenTransfer returns the nil error, GetLicenseHolder of
the request's license code on the resulting registry is found and returns the
record stored under `to_device`; where records are stored under their own id
its device id is `to_device`. -/
theorem RequestTokenTransfer_success_holder (r : DeviceRegistry) (now : Int)
    (q : TokenTransfer) (hok : (RequestTokenTransfer r now q).2 = Outcome.nil) :
    ∃ d, (GetLicenseHolder (RequestTokenTransfer r now q).1 q.LicenseCode).2 = some d ∧
      (GetDevice (RequestTokenTransfer r now q).1 q.ToDevice).2 = some d ∧
      (KeysMatch r → d.DeviceID = q.ToDevice) := by
  obtain ⟨_, hv⟩ := (RequestTokenTransfer_nil_iff r now q).mp hok
  obtain ⟨_, ⟨t, ht, _⟩, _⟩ := (validateTokenTransfer_eq_none_iff r now q).mp hv
  refine ⟨t, ?_, ?_, fun hk => KeysMatch_Load r hk _ _ ht⟩
  · rw [GetLicenseHolder_snd, RequestTokenTransfer_licenses, if_pos hok,
      RequestTokenTransfer_devices, Load_Store_self]
    exact ht
  · rw [GetDevice_snd, RequestTokenTransfer_devices]
    exact ht

/-- Witness for C2: an admitted transfer of L1 from `idB` to `idA`. -/
theorem RequestTokenTransfer_success_holder_witness :
    ∃ d, (GetLicenseHolder
        (RequestTokenTransfer (Register (Register NewDeviceRegistry 1 devA) 2 devB) 3
          ⟨tok1, "", idB, idA, "L1", 0⟩).1 "L1").2 = some d ∧
      (GetDevice
        (RequestTokenTransfer (Register (Register NewDeviceRegistry 1 devA) 2 devB) 3
          ⟨tok1, "", idB, idA, "L1", 0⟩).1 idA).2 = some d ∧
      (KeysMatch (Register (Register NewDeviceRegistry 1 devA) 2 devB) → d.DeviceID = idA) :=
  RequestTokenTransfer_success_holder (Register (Register NewDeviceRegistry 1 devA) 2 devB) 3
    ⟨tok1, "", idB, idA, "L1", 0⟩ (by decide)

/-- C3. When RequestTokenTransfer returns an error, the device map and the
license map are those before the call, and every license resolves to the same
holder as before. -/
theorem RequestTokenTransfer_error_no_effect (r : DeviceRegistry) (now : Int)
    (q : TokenTransfer) (msg : String)
    (herr : (RequestTokenTransfer r now q).2 = Outcome.err msg) :
    (RequestTokenTransfer r now q).1.devices = r.devices ∧
      (RequestTokenTransfer r now q).1.licenses = r.licenses ∧
      ∀ L, (GetLicenseHolder (RequestTokenTransfer r now q).1 L).2 =
        (GetLicenseHolder r L).2 := by
  have hne : (RequestTokenTransfer r now q).2 ≠ Outcome.nil := by
    rw [herr]
    exact fun h => Outcome.noConfusion h
  obtain ⟨hd, hl⟩ := RequestTokenTransfer_rejected_maps r now q hne
  refine ⟨hd, hl, fun L => ?_⟩
  rw [GetLicenseHolder_snd, GetLicenseHolder_snd, hd, hl]

/-- Witness for C3: `idA` asks for L1 while `idB` holds it. -/
theorem RequestTokenTransfer_error_no_effect_witness :
    (RequestTokenTransfer (Register (Register NewDeviceRegistry 1 devA) 2 devB) 3
        ⟨tok1, "", idA, idB, "L1", 0⟩).2 =
      Outcome.err ("device " ++ idA ++ " does not hold license L1 (current holder: " ++
        idB ++ ")") ∧
    ((RequestTokenTransfer (Register (Register NewDeviceRegistry 1 devA) 2 devB) 3
        ⟨tok1, "", idA, idB, "L1", 0⟩).1.devices =
      (Register (Register NewDeviceRegistry 1 devA) 2 devB).devices ∧
    (RequestTokenTransfer (Register (Register NewDeviceRegistry 1 devA) 2 devB) 3
        ⟨tok1, "", idA, idB, "L1", 0⟩).1.licenses =
      (Register (Register NewDeviceRegistry 1 devA) 2 devB).licenses ∧
    ∀ L, (GetLicenseHolder (RequestTokenTransfer
        (Register (Register NewDeviceRegistry 1 devA) 2 devB) 3
        ⟨tok1, "", idA, idB, "L1", 0⟩).1 L).2 =
      (GetLicenseHolder (Register (Register NewDeviceRegistry 1 devA) 2 devB) L).2) :=
  ⟨by decide,
    RequestTokenTransfer_error_no_effect (Register (Register NewDeviceRegistry 1 devA) 2 devB) 3
      ⟨tok1, "", idA, idB, "L1", 0⟩
      ("device " ++ idA ++ " does not hold license L1 (current holder: " ++ idB ++ ")")
      (by decide)⟩

/-- C4, at the identifiers "B", "C" and "L1". After Register("B", "L1") on the empty
registry, RequestTokenTransfer(from = "B", to = "C", license = "L1") aborts at
its first statement (`FromDevice[:16]` on a 1-byte string) and returns no
error at all, although the admission check it never reaches would report
"target device not registered: C"; the holder of L1 stays "B". -/
theorem RequestTokenTransfer_short_ids_abort :
    (RequestTokenTransfer (Register NewDeviceRegistry 1 ⟨"B", "L1", "10.0.0.2", 7002, 0⟩) 2
        ⟨tok1, "", "B", "C", "L1", 0⟩).2 = Outcome.panic ∧
    (validateTokenTransfer (Register NewDeviceRegistry 1 ⟨"B", "L1", "10.0.0.2", 7002, 0⟩) 2
        ⟨tok1, "", "B", "C", "L1", 0⟩).2 = some "target device not registered: C" ∧
    holderOf (RequestTokenTransfer
        (Register NewDeviceRegistry 1 ⟨"B", "L1", "10.0.0.2", 7002, 0⟩) 2
        ⟨tok1, "", "B", "C", "L1", 0⟩).1 "L1" = some "B" := by
  decide

/-- C5. validateTokenTransfer applies its checks in the order license, holder,
target registered, target active, token, and returns the error of the first
one that fails, whatever the later fields are. The last part is the scenario
Register(A, L) then Register(B, L) with A ≠ B: a transfer of L from A is
refused with the holder-mismatch error naming B. -/
theorem validateTokenTransfer_first_failure (r : DeviceRegistry) (now : Int)
    (q : TokenTransfer) :
    ((GetLicenseHolder r q.LicenseCode).2 = none →
      (validateTokenTransfer r now q).2 = some ("license not found: " ++ q.LicenseCode)) ∧
    (∀ h, (GetLicenseHolder r q.LicenseCode).2 = some h → h.DeviceID ≠ q.FromDevice →
      (validateTokenTransfer r now q).2 =
        some ("device " ++ q.FromDevice ++ " does not hold license " ++ q.LicenseCode ++
          " (current holder: " ++ h.DeviceID ++ ")")) ∧
    (∀ h, (GetLicenseHolder r q.LicenseCode).2 = some h → h.DeviceID = q.FromDevice →
      (GetDevice r q.ToDevice).2 = none →
      (validateTokenTransfer r now q).2 =
        some ("target device not registered: " ++ q.ToDevice)) ∧
    (∀ h t, (GetLicenseHolder r q.LicenseCode).2 = some h → h.DeviceID = q.FromDevice →
      (GetDevice r q.ToDevice).2 = some t → now - t.LastSeen > 10 * Minute →
      (validateTokenTransfer r now q).2 =
        some ("target device not recently active: " ++ q.ToDevice)) ∧
    (∀ h t, (GetLicenseHolder r q.LicenseCode).2 = some h → h.DeviceID = q.FromDevice →
      (GetDevice r q.ToDevice).2 = some t → now - t.LastSeen ≤ 10 * Minute →
      q.TokenData ≠ "" → ¬ q.LicenseCode.data <:+: q.TokenData.data →
      (validateTokenTransfer r now q).2 =
        some "token validation failed: token license code mismatch") ∧
    (∀ (t1 t2 : Int) (a b : Device), KeysMatch r → a.DeviceID ≠ b.DeviceID →
      a.LicenseCode = q.LicenseCode → b.LicenseCode = q.LicenseCode →
      q.FromDevice = a.DeviceID →
      (validateTokenTransfer (Register (Register r t1 a) t2 b) now q).2 =
        some ("device " ++ a.DeviceID ++ " does not hold license " ++ q.LicenseCode ++
          " (current holder: " ++ b.DeviceID ++ ")")) := by
  refine ⟨?_, ?_, ?_, ?_, ?_, ?_⟩
  · intro h0
    rw [GetLicenseHolder_snd] at h0
    rw [validateTokenTransfer_snd, h0]
  · intro h h0 hne
    rw [GetLicenseHolder_snd] at h0
    rw [validateTokenTransfer_snd, h0]
    simp [hne]
  · intro h h0 heq h1
    rw [GetLicenseHolder_snd] at h0
    rw [GetDevice_snd] at h1
    rw [validateTokenTransfer_snd, h0]
    simp [heq, h1]
  · intro h t h0 heq h1 hact
    rw [GetLicenseHolder_snd] at h0
    rw [GetDevice_snd] at h1
    have hact2 : 10 * Minute < now - t.LastSeen := hact
    rw [validateTokenTransfer_snd, h0]
    simp [heq, h1, hact2]
  · intro h t h0 heq h1 hact hdata hsub
    rw [GetLicenseHolder_snd] at h0
    rw [GetDevice_snd] at h1
    have hact2 : ¬ 10 * Minute < now - t.LastSeen := by omega
    rw [validateTokenTransfer_snd, h0]
    simp [heq, h1, hact2, hdata, hsub]
  · intro t1 t2 a b hk hab hla hlb hfrom
    have hk2 : KeysMatch (Register (Register r t1 a) t2 b) :=
      Register_KeysMatch _ _ _ (Register_KeysMatch _ _ _ hk)
    have hsome : ∃ rec, Load (Register (Register r t1 a) t2 b).devices b.DeviceID = some rec := by
      rw [Register_Load_self]
      cases Load (Register r t1 a).devices b.DeviceID with
      | none => exact ⟨_, rfl⟩
      | some old => exact ⟨old, rfl⟩
    obtain ⟨rec, hrec⟩ := hsome
    have hid : rec.DeviceID = b.DeviceID := KeysMatch_Load _ hk2 _ _ hrec
    have hlic : Load (Register (Register r t1 a) t2 b).licenses q.LicenseCode =
        some b.DeviceID := by
      rw [Register_licenses, hlb, Load_Store_self]
    have hne : ¬ rec.DeviceID = q.FromDevice := by
      rw [hid, hfrom]
      exact fun h => hab h.symm
    rw [validateTokenTransfer_snd, hlic]
    simp only [Option.some_bind, hrec, ne_eq, hne, not_false_eq_true, if_true, hid, hfrom]
    rw [if_pos (fun h => hab h.symm)]

/-- Witness for C5: the scenario on the empty registry, with ids "A" and "B". -/
theorem validateTokenTransfer_first_failure_witness :
    (validateTokenTransfer
        (Register (Register NewDeviceRegistry 1 ⟨"A", "L1", "10.0.0.1", 7001, 0⟩) 2
          ⟨"B", "L1", "10.0.0.2", 7002, 0⟩) 3 ⟨tok1, "", "A", "B", "L1", 0⟩).2 =
      some ("device " ++ "A" ++ " does not hold license " ++ "L1" ++
        " (current holder: " ++ "B" ++ ")") :=
  (validateTokenTransfer_first_failure NewDeviceRegistry 3
    ⟨tok1, "", "A", "B", "L1", 0⟩).2.2.2.2.2 1 2 ⟨"A", "L1", "10.0.0.1", 7001, 0⟩
    ⟨"B", "L1", "10.0.0.2", 7002, 0⟩ (by decide) (by decide) rfl rfl rfl

/-- C7, at a device id that is already registered. Register(devA) at time 100
and then Register(devA2) (same id, license L2, another address and port) at
time 200: GetDevice still returns the first record, with license L1 and
last_seen 100, not the fields of devA2 with last_seen 200. -/
theorem Register_existing_keeps_old_record :
    (GetDevice (Register (Register NewDeviceRegistry 100 devA) 200 devA2) idA).2 =
        some { devA with LastSeen := 100 } ∧
    (GetDevice (Register (Register NewDeviceRegistry 100 devA) 200 devA2) idA).2 ≠
        some { devA2 with LastSeen := 200 } := by
  decide

/-- C8, at a device id that is already registered. After Register(devA) at
time 100 and Register(devA2) at time 200 (same id, license L2),
GetLicenseHolder("L2") is found but returns the record of the first
registration (license L1, last_seen 100), not the record of devA2. -/
theorem Register_existing_holder_stale :
    (GetLicenseHolder (Register (Register NewDeviceRegistry 100 devA) 200 devA2) "L2").2 =
        some { devA with LastSeen := 100 } ∧
    (GetLicenseHolder (Register (Register NewDeviceRegistry 100 devA) 200 devA2) "L2").2 ≠
        some { devA2 with LastSeen := 200 } := by
  decide

/-- C9, on the empty registry. The first Register of a device id leaves
TotalDevices at 0, and registering the same id again raises it to 1: the
counter moves on re-registration, not on first insertion. -/
theorem Register_TotalDevices_inverted :
    Load NewDeviceRegistry.devices devA.DeviceID = none ∧
    (Register NewDeviceRegistry 100 devA).stats.TotalDevices =
      NewDeviceRegistry.stats.TotalDevices ∧
    (Load (Register NewDeviceRegistry 100 devA).devices devA.DeviceID).isSome = true ∧
    (Register (Register NewDeviceRegistry 100 devA) 200 devA).stats.TotalDevices =
      (Register NewDeviceRegistry 100 devA).stats.TotalDevices + 1 := by
  decide

/-- C10. Register raises TotalLicenses by exactly one when the license map has
no entry for the device's license code, and leaves it unchanged when it has
one. -/
theorem Register_TotalLicenses (r : DeviceRegistry) (now : Int) (d : Device) :
    (Load r.licenses d.LicenseCode = none →
      (Register r now d).stats.TotalLicenses = r.stats.TotalLicenses + 1) ∧
    (∀ id, Load r.licenses d.LicenseCode = some id →
      (Register r now d).stats.TotalLicenses = r.stats.TotalLicenses) := by
  constructor
  · intro h
    rw [Register_stats, h]
    simp
  · intro id h
    rw [Register_stats, h]
    simp

/-- Witness for C10: first registration of L1, then a second device under L1. -/
theorem Register_TotalLicenses_witness :
    (Register NewDeviceRegistry 1 devA).stats.TotalLicenses =
      NewDeviceRegistry.stats.TotalLicenses + 1 ∧
    (Register (Register NewDeviceRegistry 1 devA) 2 devB).stats.TotalLicenses =
      (Register NewDeviceRegistry 1 devA).stats.TotalLicenses :=
  ⟨(Register_TotalLicenses NewDeviceRegistry 1 devA).1 (by decide),
    (Register_TotalLicenses (Register NewDeviceRegistry 1 devA) 2 devB).2 idA (by decide)⟩

/-! ## One visit of the eviction sweep -/

theorem cleanupVisit_devices (now timeout : Int) (acc : DeviceRegistry × Int)
    (x : String × Device) :
    (cleanupVisit now timeout acc x).1.devices =
      if timeSub now x.2.LastSeen > timeout then Delete acc.1.devices x.1
      else acc.1.devices := by
  unfold cleanupVisit
  by_cases hs : timeSub now x.2.LastSeen > timeout
  · simp only [hs, if_true]
  · simp only [hs, if_false]

theorem cleanupVisit_licenses (now timeout : Int) (acc : DeviceRegistry × Int)
    (x : String × Device) :
    (cleanupVisit now timeout acc x).1.licenses =
      if timeSub now x.2.LastSeen > timeout ∧
          Load acc.1.licenses x.2.LicenseCode = some x.1 then
        Delete acc.1.licenses x.2.LicenseCode
      else acc.1.licenses := by
  unfold cleanupVisit
  by_cases hs : timeSub now x.2.LastSeen > timeout
  · simp only [hs, if_true, true_and]
    cases Load acc.1.licenses x.2.LicenseCode with
    | none => simp
    | some holderID => by_cases hh : holderID = x.1 <;> simp [hh]
  · simp only [hs, if_false, false_and]

theorem cleanupVisit_count (now timeout : Int) (acc : DeviceRegistry × Int)
    (x : String × Device) :
    (cleanupVisit now timeout acc x).2 =
      if timeSub now x.2.LastSeen > timeout then acc.2 + 1 else acc.2 := by
  unfold cleanupVisit
  by_cases hs : timeSub now x.2.LastSeen > timeout
  · simp only [hs, if_true]
  · simp only [hs, if_false]

/-! ## The whole sweep, seen through Load -/

theorem cleanupFold_devices_Load (now timeout : Int) (l : List (String × Device))
    (acc : DeviceRegistry × Int) (k : String) :
    Load (l.foldl (cleanupVisit now timeout) acc).1.devices k =
      if ∃ e ∈ l, e.1 = k ∧ timeSub now e.2.LastSeen > timeout then none
      else Load acc.1.devices k := by
  induction l generalizing acc with
  | nil => simp
  | cons x l ih =>
    rw [List.foldl_cons, ih, cleanupVisit_devices]
    by_cases hl : ∃ e ∈ l, e.1 = k ∧ timeSub now e.2.LastSeen > timeout
    · have hxl : ∃ e ∈ x :: l, e.1 = k ∧ timeSub now e.2.LastSeen > timeout := by
        obtain ⟨e, he, hp⟩ := hl
        exact ⟨e, List.mem_cons_of_mem _ he, hp⟩
      rw [if_pos hl, if_pos hxl]
    · rw [if_neg hl]
      by_cases hs : timeSub now x.2.LastSeen > timeout
      · rw [if_pos hs]
        by_cases hk : x.1 = k
        · have hxl : ∃ e ∈ x :: l, e.1 = k ∧ timeSub now e.2.LastSeen > timeout :=
            ⟨x, List.mem_cons_self _ _, hk, hs⟩
          rw [if_pos hxl, ← hk, Load_Delete_self]
        · have hxl : ¬ ∃ e ∈ x :: l, e.1 = k ∧ timeSub now e.2.LastSeen > timeout := by
            rintro ⟨e, he, hp⟩
            rcases List.mem_cons.mp he with heq | hmem
            · exact hk (heq ▸ hp.1)
            · exact hl ⟨e, hmem, hp⟩
          rw [if_neg hxl, Load_Delete_ne _ _ _ (fun h => hk h.symm)]
      · rw [if_neg hs]
        have hxl : ¬ ∃ e ∈ x :: l, e.1 = k ∧ timeSub now e.2.LastSeen > timeout := by
          rintro ⟨e, he, hp⟩
          rcases List.mem_cons.mp he with heq | hmem
          · exact hs (heq ▸ hp.2)
          · exact hl ⟨e, hmem, hp⟩
        rw [if_neg hxl]

theorem cleanupFold_licenses_Load (now timeout : Int) (l : List (String × Device))
    (acc : DeviceRegistry × Int) (L : String) :
    Load (l.foldl (cleanupVisit now timeout) acc).1.licenses L =
      (Load acc.1.licenses L).bind (fun id =>
        if ∃ e ∈ l, e.1 = id ∧ e.2.LicenseCode = L ∧ timeSub now e.2.LastSeen > timeout
        then none else some id) := by
  induction l generalizing acc with
  | nil => cases h : Load acc.1.licenses L <;> simp [h]
  | cons x l ih =>
    rw [List.foldl_cons, ih, cleanupVisit_licenses]
    cases hL : Load acc.1.licenses L with
    | none =>
      by_cases hc : timeSub now x.2.LastSeen > timeout ∧
          Load acc.1.licenses x.2.LicenseCode = some x.1
      · rw [if_pos hc]
        by_cases hk : L = x.2.LicenseCode
        · rw [hk, Load_Delete_self]
          rfl
        · rw [Load_Delete_ne _ _ _ hk, hL]
          rfl
      · rw [if_neg hc, hL]
        rfl
    | some id =>
      by_cases hc : timeSub now x.2.LastSeen > timeout ∧
          Load acc.1.licenses x.2.LicenseCode = some x.1
      · rw [if_pos hc]
        by_cases hk : L = x.2.LicenseCode
        · have hid : id = x.1 := by
            rw [hk, hc.2] at hL
            exact (Option.some.inj hL).symm
          have hxl : ∃ e ∈ x :: l, e.1 = id ∧ e.2.LicenseCode = L ∧
              timeSub now e.2.LastSeen > timeout :=
            ⟨x, List.mem_cons_self _ _, hid.symm, hk.symm, hc.1⟩
          rw [hk, Load_Delete_self, ← hk]
          simp only [Option.none_bind, Option.some_bind]
          rw [if_pos hxl]
        · rw [Load_Delete_ne _ _ _ hk, hL]
          simp only [Option.some_bind]
          have hiff : (∃ e ∈ x :: l, e.1 = id ∧ e.2.LicenseCode = L ∧
              timeSub now e.2.LastSeen > timeout) ↔
              (∃ e ∈ l, e.1 = id ∧ e.2.LicenseCode = L ∧
              timeSub now e.2.LastSeen > timeout) := by
            constructor
            · rintro ⟨e, he, hp⟩
              rcases List.mem_cons.mp he with heq | hmem
              · exact absurd (heq ▸ hp.2.1).symm hk
              · exact ⟨e, hmem, hp⟩
            · rintro ⟨e, he, hp⟩
              exact ⟨e, List.mem_cons_of_mem _ he, hp⟩
          simp only [hiff]
      · rw [if_neg hc, hL]
        simp only [Option.some_bind]
        have hiff : (∃ e ∈ x :: l, e.1 = id ∧ e.2.LicenseCode = L ∧
            timeSub now e.2.LastSeen > timeout) ↔
            (∃ e ∈ l, e.1 = id ∧ e.2.LicenseCode = L ∧
            timeSub now e.2.LastSeen > timeout) := by
          constructor
          · rintro ⟨e, he, hp⟩
            rcases List.mem_cons.mp he with heq | hmem
            · exfalso
              apply hc
              subst heq
              refine ⟨hp.2.2, ?_⟩
              rw [hp.2.1, hL, hp.1]
            · exact ⟨e, hmem, hp⟩
          · rintro ⟨e, he, hp⟩
            exact ⟨e, List.mem_cons_of_mem _ he, hp⟩
        simp only [hiff]

/-! ## Reachable registries are well formed -/

theorem WellFormed_congr (r r' : DeviceRegistry) (hd : r'.devices = r.devices)
    (hl : r'.licenses = r.licenses) (h : WellFormed r) : WellFormed r' := by
  unfold WellFormed KeysMatch at *
  rw [hd, hl]
  exact h

theorem Register_WellFormed (r : DeviceRegistry) (now : Int) (d : Device)
    (h : WellFormed r) : WellFormed (Register r now d) := by
  obtain ⟨h1, h2, h3⟩ := h
  refine ⟨?_, ?_, Register_KeysMatch r now d h3⟩
  · rw [Register_devices]
    cases Load r.devices d.DeviceID with
    | none => exact nodup_Store _ _ _ h1
    | some old => exact h1
  · rw [Register_licenses]
    exact nodup_Store _ _ _ h2

theorem Heartbeat_WellFormed (r : DeviceRegistry) (now : Int) (deviceID : String)
    (h : WellFormed r) : WellFormed (Heartbeat r now deviceID).1 := by
  unfold Heartbeat
  cases hl : Load r.devices deviceID with
  | none => exact h
  | some device =>
    obtain ⟨h1, h2, h3⟩ := h
    refine ⟨nodup_Store _ _ _ h1, h2, ?_⟩
    intro e he
    rcases mem_Store _ _ _ _ he with heq | hmem
    · rw [heq]
      exact KeysMatch_Load r h3 deviceID device hl
    · exact h3 e hmem

theorem cleanupVisit_WellFormed (now timeout : Int) (acc : DeviceRegistry × Int)
    (x : String × Device) (h : WellFormed acc.1) :
    WellFormed (cleanupVisit now timeout acc x).1 := by
  obtain ⟨h1, h2, h3⟩ := h
  refine ⟨?_, ?_, ?_⟩
  · rw [cleanupVisit_devices]
    split_ifs
    · exact nodup_Delete _ _ h1
    · exact h1
  · rw [cleanupVisit_licenses]
    split_ifs
    · exact nodup_Delete _ _ h2
    · exact h2
  · unfold KeysMatch
    rw [cleanupVisit_devices]
    split_ifs
    · exact fun e he => h3 e (mem_Delete _ _ _ he)
    · exact h3

theorem cleanupFold_WellFormed (now timeout : Int) (l : List (String × Device))
    (acc : DeviceRegistry × Int) (h : WellFormed acc.1) :
    WellFormed (l.foldl (cleanupVisit now timeout) acc).1 := by
  induction l generalizing acc with
  | nil => exact h
  | cons x l ih =>
    rw [List.foldl_cons]
    exact ih _ (cleanupVisit_WellFormed now timeout acc x h)

theorem step_WellFormed (r : DeviceRegistry) (now : Int) (op : Op) (h : WellFormed r) :
    WellFormed (step r now op) := by
  cases op with
  | register device => exact Register_WellFormed r now device h
  | heartbeat deviceID => exact Heartbeat_WellFormed r now deviceID h
  | getDevice deviceID =>
    exact WellFormed_congr r _ (GetDevice_maps r deviceID).1 (GetDevice_maps r deviceID).2 h
  | getLicenseHolder licenseCode =>
    exact WellFormed_congr r _ (GetLicenseHolder_maps r licenseCode).1
      (GetLicenseHolder_maps r licenseCode).2 h
  | transfer q =>
    obtain ⟨h1, h2, h3⟩ := h
    refine ⟨?_, ?_, ?_⟩
    · show (List.map Prod.fst (RequestTokenTransfer r now q).1.devices).Nodup
      rw [RequestTokenTransfer_devices]
      exact h1
    · show (List.map Prod.fst (RequestTokenTransfer r now q).1.licenses).Nodup
      rw [RequestTokenTransfer_licenses]
      split_ifs
      · exact nodup_Store _ _ _ h2
      · exact h2
    · show KeysMatch (RequestTokenTransfer r now q).1
      unfold KeysMatch
      rw [RequestTokenTransfer_devices]
      exact h3
  | cleanup timeout => exact cleanupFold_WellFormed now timeout r.devices (r, 0) h

theorem Reachable_WellFormed (r : DeviceRegistry) (h : Reachable r) : WellFormed r := by
  induction h with
  | init => decide
  | next now op _ ih => exact step_WellFormed _ now op ih

/-! ## Who holds a license after one call -/

theorem holderOf_eq (r : DeviceRegistry) (L : String) :
    holderOf r L = ((Load r.licenses L).bind (Load r.devices)).map Device.DeviceID := by
  unfold holderOf
  rw [GetLicenseHolder_snd]

theorem holderOf_congr (r r' : DeviceRegistry) (hd : r'.devices = r.devices)
    (hl : r'.licenses = r.licenses) (L : String) : holderOf r' L = holderOf r L := by
  rw [holderOf_eq, holderOf_eq, hd, hl]

/-- In a registry whose records sit under their own ids, the holder reported
for a license is the id the license map records, and its record exists. -/
theorem holderOf_some_iff (r : DeviceRegistry) (hk : KeysMatch r) (L X : String) :
    holderOf r L = some X ↔
      Load r.licenses L = some X ∧ ∃ d, Load r.devices X = some d := by
  rw [holderOf_eq]
  cases hl : Load r.licenses L with
  | none => simp
  | some id =>
    cases hd : Load r.devices id with
    | none =>
      simp only [Option.some_bind, hd, Option.map_none', Option.some.injEq]
      constructor
      · exact fun h => Option.noConfusion h
      · rintro ⟨rfl, d, hd2⟩
        rw [hd] at hd2
        exact Option.noConfusion hd2
    | some d =>
      have hid := KeysMatch_Load r hk _ _ hd
      simp only [Option.some_bind, hd, Option.map_some', Option.some.injEq, hid]
      constructor
      · rintro rfl
        exact ⟨rfl, d, hd⟩
      · exact fun h => h.1

theorem holderOf_none_iff (r : DeviceRegistry) (L : String) :
    holderOf r L = none ↔
      Load r.licenses L = none ∨ ∃ id, Load r.licenses L = some id ∧ Load r.devices id = none := by
  rw [holderOf_eq]
  cases hl : Load r.licenses L with
  | none => simp
  | some id =>
    cases hd : Load r.devices id with
    | none => simp [hd]
    | some d => simp [hd]

theorem Heartbeat_licenses (r : DeviceRegistry) (now : Int) (deviceID : String) :
    (Heartbeat r now deviceID).1.licenses = r.licenses := by
  unfold Heartbeat
  cases Load r.devices deviceID <;> rfl

theorem Heartbeat_Load (r : DeviceRegistry) (now : Int) (deviceID k : String) :
    Load (Heartbeat r now deviceID).1.devices k =
      if k = deviceID then (Load r.devices k).map (fun d => { d with LastSeen := now })
      else Load r.devices k := by
  unfold Heartbeat
  by_cases hk : k = deviceID
  · subst hk
    rw [if_pos rfl]
    cases hl : Load r.devices k with
    | none => simp [hl]
    | some device => simp [Load_Store_self]
  · rw [if_neg hk]
    cases hl : Load r.devices deviceID with
    | none => rfl
    | some device => simp [Load_Store_ne _ _ _ _ hk]

theorem CleanupInactive_devices_Load (r : DeviceRegistry) (now timeout : Int) (k : String) :
    Load (CleanupInactive r now timeout).1.devices k =
      if ∃ e ∈ r.devices, e.1 = k ∧ timeSub now e.2.LastSeen > timeout then none
      else Load r.devices k :=
  cleanupFold_devices_Load now timeout r.devices (r, 0) k

theorem CleanupInactive_licenses_Load (r : DeviceRegistry) (now timeout : Int) (L : String) :
    Load (CleanupInactive r now timeout).1.licenses L =
      (Load r.licenses L).bind (fun id =>
        if ∃ e ∈ r.devices, e.1 = id ∧ e.2.LicenseCode = L ∧
            timeSub now e.2.LastSeen > timeout
        then none else some id) :=
  cleanupFold_licenses_Load now timeout r.devices (r, 0) L

/-- After a sweep a license that had holder `X` has holder `X` or none, and
none only when the record of `X` was older than the timeout and is gone. -/
theorem CleanupInactive_holder (r : DeviceRegistry) (hwf : WellFormed r) (now timeout : Int)
    (L X : String) (hX : holderOf r L = some X) :
    holderOf (CleanupInactive r now timeout).1 L = some X ∨
      (holderOf (CleanupInactive r now timeout).1 L = none ∧
        ∃ d, Load r.devices X = some d ∧ timeSub now d.LastSeen > timeout ∧
          Load (CleanupInactive r now timeout).1.devices X = none) := by
  obtain ⟨hlic, d, hd⟩ := (holderOf_some_iff r hwf.2.2 L X).mp hX
  have hwf2 : WellFormed (CleanupInactive r now timeout).1 :=
    cleanupFold_WellFormed now timeout r.devices (r, 0) hwf
  by_cases hev : ∃ e ∈ r.devices, e.1 = X ∧ timeSub now e.2.LastSeen > timeout
  · right
    have hgone : Load (CleanupInactive r now timeout).1.devices X = none := by
      rw [CleanupInactive_devices_Load, if_pos hev]
    obtain ⟨e, he, he1, he2⟩ := hev
    have hde : Load r.devices e.1 = some e.2 := mem_Load_of_nodup _ _ _ hwf.1 he
    rw [he1, hd] at hde
    have hde2 : d = e.2 := Option.some.inj hde
    refine ⟨?_, d, hd, hde2 ▸ he2, hgone⟩
    rw [holderOf_none_iff]
    cases hl2 : Load (CleanupInactive r now timeout).1.licenses L with
    | none => exact Or.inl rfl
    | some id =>
      right
      refine ⟨id, rfl, ?_⟩
      rw [CleanupInactive_licenses_Load, hlic] at hl2
      simp only [Option.some_bind] at hl2
      split_ifs at hl2
      rw [← Option.some.inj hl2]
      exact hgone
  · left
    rw [holderOf_some_iff _ hwf2.2.2]
    constructor
    · rw [CleanupInactive_licenses_Load, hlic]
      simp only [Option.some_bind]
      rw [if_neg]
      rintro ⟨e, he, he1, _, he3⟩
      exact hev ⟨e, he, he1, he3⟩
    · refine ⟨d, ?_⟩
      rw [CleanupInactive_devices_Load, if_neg hev]
      exact hd

/-- C6 as stated fails. In the reachable registry where `idA` holds L1, the
call Register(devB) (device `idB`, license L1) is not a transfer, yet
afterwards L1 is held by `idB`. -/
theorem holder_changed_by_Register :
    Reachable (step NewDeviceRegistry 1 (Op.register devA)) ∧
    holderOf (step NewDeviceRegistry 1 (Op.register devA)) "L1" = some idA ∧
    holderOf (step (step NewDeviceRegistry 1 (Op.register devA)) 2 (Op.register devB)) "L1" =
      some idB ∧
    idB ≠ idA ∧ ∀ q, Op.register devB ≠ Op.transfer q :=
  ⟨Reachable.next 1 (Op.register devA) Reachable.init, by decide, by decide, by decide,
    fun _ h => Op.noConfusion h⟩

/-- C6, amended. In a reachable registry where license `L` is held by `X`, a
call after which `L` is held by another device `Y` is either an admitted
RequestTokenTransfer of `L` from `X` to `Y` or a Register of device `Y` under
license `L`; a call after which `L` has no holder is a CleanupInactive for
which the record of `X` was older than the timeout, and that record is gone.
Every other call (Heartbeat, a rejected transfer, a read, a Register under
another license) leaves `X` the holder. -/
theorem holder_step (r : DeviceRegistry) (hr : Reachable r) (L X : String)
    (hX : holderOf r L = some X) (now : Int) (op : Op) :
    (∀ Y, holderOf (step r now op) L = some Y → Y ≠ X →
      (∃ q, op = Op.transfer q ∧ q.LicenseCode = L ∧ q.FromDevice = X ∧ q.ToDevice = Y ∧
        (RequestTokenTransfer r now q).2 = Outcome.nil) ∨
      (∃ d, op = Op.register d ∧ d.LicenseCode = L ∧ d.DeviceID = Y)) ∧
    (holderOf (step r now op) L = none →
      ∃ timeout d, op = Op.cleanup timeout ∧ Load r.devices X = some d ∧
        timeSub now d.LastSeen > timeout ∧ Load (step r now op).devices X = none) := by
  have hwf := Reachable_WellFormed r hr
  have hk := hwf.2.2
  have hk2 : KeysMatch (step r now op) := (step_WellFormed r now op hwf).2.2
  obtain ⟨hlic, d0, hd0⟩ := (holderOf_some_iff r hk L X).mp hX
  have hsame : holderOf (step r now op) L = some X →
      (∀ Y, holderOf (step r now op) L = some Y → Y ≠ X →
        (∃ q, op = Op.transfer q ∧ q.LicenseCode = L ∧ q.FromDevice = X ∧ q.ToDevice = Y ∧
          (RequestTokenTransfer r now q).2 = Outcome.nil) ∨
        (∃ d, op = Op.register d ∧ d.LicenseCode = L ∧ d.DeviceID = Y)) ∧
      (holderOf (step r now op) L = none →
        ∃ timeout d, op = Op.cleanup timeout ∧ Load r.devices X = some d ∧
          timeSub now d.LastSeen > timeout ∧ Load (step r now op).devices X = none) := by
    intro hs
    rw [hs]
    exact ⟨fun Y hY hne => absurd (Option.some.inj hY).symm hne,
      fun h => Option.noConfusion h⟩
  cases op with
  | register d =>
    by_cases hL : d.LicenseCode = L
    · have hlic2 : Load (Register r now d).licenses L = some d.DeviceID := by
        rw [Register_licenses, hL, Load_Store_self]
      have hdev2 : ∃ rec, Load (Register r now d).devices d.DeviceID = some rec := by
        rw [Register_Load_self]
        cases Load r.devices d.DeviceID with
        | none => exact ⟨_, rfl⟩
        | some old => exact ⟨old, rfl⟩
      have hh : holderOf (step r now (Op.register d)) L = some d.DeviceID :=
        (holderOf_some_iff _ hk2 L d.DeviceID).mpr ⟨hlic2, hdev2⟩
      rw [hh]
      exact ⟨fun Y hY _ => Or.inr ⟨d, rfl, hL, Option.some.inj hY⟩,
        fun h => Option.noConfusion h⟩
    · apply hsame
      rw [holderOf_some_iff _ hk2]
      constructor
      · show Load (Register r now d).licenses L = some X
        rw [Register_licenses, Load_Store_ne _ _ _ _ (fun h => hL h.symm)]
        exact hlic
      · refine ⟨d0, ?_⟩
        show Load (Register r now d).devices X = some d0
        by_cases hx : X = d.DeviceID
        · rw [hx, Register_Load_self, ← hx, hd0]
        · rw [Register_Load_ne _ _ _ _ hx]
          exact hd0
  | heartbeat deviceID =>
    apply hsame
    rw [holderOf_some_iff _ hk2]
    constructor
    · show Load (Heartbeat r now deviceID).1.licenses L = some X
      rw [Heartbeat_licenses]
      exact hlic
    · show ∃ d, Load (Heartbeat r now deviceID).1.devices X = some d
      rw [Heartbeat_Load, hd0]
      split_ifs
      · exact ⟨_, rfl⟩
      · exact ⟨_, rfl⟩
  | getDevice deviceID =>
    apply hsame
    show holderOf (GetDevice r deviceID).1 L = some X
    rw [holderOf_congr r _ (GetDevice_maps r deviceID).1 (GetDevice_maps r deviceID).2]
    exact hX
  | getLicenseHolder licenseCode =>
    apply hsame
    show holderOf (GetLicenseHolder r licenseCode).1 L = some X
    rw [holderOf_congr r _ (GetLicenseHolder_maps r licenseCode).1
      (GetLicenseHolder_maps r licenseCode).2]
    exact hX
  | transfer q =>
    by_cases hok : (RequestTokenTransfer r now q).2 = Outcome.nil
    · by_cases hL : q.LicenseCode = L
      · obtain ⟨_, hv⟩ := (RequestTokenTransfer_nil_iff r now q).mp hok
        obtain ⟨⟨id, h, hid, hh, hfrom⟩, ⟨t, ht, _⟩, _⟩ :=
          (validateTokenTransfer_eq_none_iff r now q).mp hv
        have hidX : id = X := by
          rw [hL, hlic] at hid
          exact (Option.some.inj hid).symm
        have hfromX : q.FromDevice = X := by
          rw [← hfrom, KeysMatch_Load r hk _ _ hh, hidX]
        have hh2 : holderOf (step r now (Op.transfer q)) L = some q.ToDevice := by
          rw [holderOf_some_iff _ hk2]
          constructor
          · show Load (RequestTokenTransfer r now q).1.licenses L = some q.ToDevice
            rw [RequestTokenTransfer_licenses, if_pos hok, hL, Load_Store_self]
          · refine ⟨t, ?_⟩
            show Load (RequestTokenTransfer r now q).1.devices q.ToDevice = some t
            rw [RequestTokenTransfer_devices]
            exact ht
        rw [hh2]
        exact ⟨fun Y hY _ => Or.inl ⟨q, rfl, hL, hfromX, Option.some.inj hY, hok⟩,
          fun h => Option.noConfusion h⟩
      · apply hsame
        rw [holderOf_some_iff _ hk2]
        constructor
        · show Load (RequestTokenTransfer r now q).1.licenses L = some X
          rw [RequestTokenTransfer_licenses, if_pos hok,
            Load_Store_ne _ _ _ _ (fun h => hL h.symm)]
          exact hlic
        · refine ⟨d0, ?_⟩
          show Load (RequestTokenTransfer r now q).1.devices X = some d0
          rw [RequestTokenTransfer_devices]
          exact hd0
    · apply hsame
      show holderOf (RequestTokenTransfer r now q).1 L = some X
      obtain ⟨h1, h2⟩ := RequestTokenTransfer_rejected_maps r now q hok
      rw [holderOf_congr r _ h1 h2]
      exact hX
  | cleanup timeout =>
    rcases CleanupInactive_holder r hwf now timeout L X hX with hs | ⟨hn, d, hd, hstale, hgone⟩
    · exact hsame hs
    · constructor
      · intro Y hY
        have hY2 : holderOf (CleanupInactive r now timeout).1 L = some Y := hY
        rw [hn] at hY2
        exact Option.noConfusion hY2
      · intro _
        exact ⟨timeout, d, rfl, hd, hstale, hgone⟩

/-- Witness for C6 amended: `idA` holds L1 and `idB` registers under L1. -/
theorem holder_step_witness :
    (∀ Y, holderOf (step (step NewDeviceRegistry 1 (Op.register devA)) 2 (Op.register devB))
        "L1" = some Y → Y ≠ idA →
      (∃ q, Op.register devB = Op.transfer q ∧ q.LicenseCode = "L1" ∧ q.FromDevice = idA ∧
        q.ToDevice = Y ∧
        (RequestTokenTransfer (step NewDeviceRegistry 1 (Op.register devA)) 2 q).2 =
          Outcome.nil) ∨
      (∃ d, Op.register devB = Op.register d ∧ d.LicenseCode = "L1" ∧ d.DeviceID = Y)) ∧
    (holderOf (step (step NewDeviceRegistry 1 (Op.register devA)) 2 (Op.register devB))
        "L1" = none →
      ∃ timeout d, Op.register devB = Op.cleanup timeout ∧
        Load (step NewDeviceRegistry 1 (Op.register devA)).devices idA = some d ∧
        timeSub 2 d.LastSeen > timeout ∧
        Load (step (step NewDeviceRegistry 1 (Op.register devA)) 2
          (Op.register devB)).devices idA = none) :=
  holder_step (step NewDeviceRegistry 1 (Op.register devA))
    (Reachable.next 1 (Op.register devA) Reachable.init) "L1" idA (by decide) 2
    (Op.register devB)

/-- The unregistered-target scenario for identifiers of at least 16 bytes:
after Register(b), a transfer of b's license from b to a device that has no
record returns "target device not registered" and b stays the holder. -/
theorem transfer_to_unregistered_target (r : DeviceRegistry) (t now : Int) (b : Device)
    (q : TokenTransfer) (hk : KeysMatch r) (hC : Load r.devices q.ToDevice = none)
    (hne : q.ToDevice ≠ b.DeviceID) (hfrom : q.FromDevice = b.DeviceID)
    (hL : q.LicenseCode = b.LicenseCode)
    (hs : (sliceInRange q.FromDevice 16 && sliceInRange q.ToDevice 16 &&
      sliceInRange q.TokenID 16) = true) :
    (RequestTokenTransfer (Register r t b) now q).2 =
        Outcome.err ("target device not registered: " ++ q.ToDevice) ∧
      holderOf (RequestTokenTransfer (Register r t b) now q).1 b.LicenseCode =
        some b.DeviceID := by
  have hk2 : KeysMatch (Register r t b) := Register_KeysMatch r t b hk
  have hlic : Load (Register r t b).licenses q.LicenseCode = some b.DeviceID := by
    rw [Register_licenses, hL, Load_Store_self]
  have hsome : ∃ rec, Load (Register r t b).devices b.DeviceID = some rec := by
    rw [Register_Load_self]
    cases Load r.devices b.DeviceID with
    | none => exact ⟨_, rfl⟩
    | some old => exact ⟨old, rfl⟩
  obtain ⟨rec, hrec⟩ := hsome
  have hid : rec.DeviceID = q.FromDevice := by
    rw [hfrom]
    exact KeysMatch_Load _ hk2 _ _ hrec
  have hto : Load (Register r t b).devices q.ToDevice = none := by
    rw [Register_Load_ne _ _ _ _ hne]
    exact hC
  have hv : (validateTokenTransfer (Register r t b) now q).2 =
      some ("target device not registered: " ++ q.ToDevice) := by
    rw [validateTokenTransfer_snd, hlic]
    simp only [Option.some_bind, hrec, hid, ne_eq, not_true_eq_false, if_false, hto]
  have hout : (RequestTokenTransfer (Register r t b) now q).2 =
      Outcome.err ("target device not registered: " ++ q.ToDevice) := by
    rw [RequestTokenTransfer_snd _ _ _ hs, hv]
  refine ⟨hout, ?_⟩
  have hrej : (RequestTokenTransfer (Register r t b) now q).2 ≠ Outcome.nil := by
    rw [hout]
    exact fun h => Outcome.noConfusion h
  obtain ⟨h1, h2⟩ := RequestTokenTransfer_rejected_maps _ now q hrej
  rw [holderOf_congr _ _ h1 h2, holderOf_some_iff _ hk2, ← hL]
  exact ⟨hlic, rec, hrec⟩

/-! ## Re-registration, heartbeat and holder lookup -/

/-- Register on a device id that already has a record leaves the whole device
map as it was. -/
theorem Register_existing_devices (r : DeviceRegistry) (now : Int) (d old : Device)
    (h : Load r.devices d.DeviceID = some old) : (Register r now d).devices = r.devices := by
  rw [Register_devices, h]

theorem Load_some_mem_keys {V : Type} (m : List (String × V)) (k : String) (v : V)
    (h : Load m k = some v) : k ∈ m.map Prod.fst :=
  List.mem_map.mpr ⟨(k, v), Load_eq_some_mem m k v h, rfl⟩

theorem Heartbeat_existing (r : DeviceRegistry) (now : Int) (deviceID : String) (old : Device)
    (h : Load r.devices deviceID = some old) :
    Heartbeat r now deviceID =
      ({ r with devices := Store r.devices deviceID { old with LastSeen := now },
                stats := { r.stats with Heartbeats := r.stats.Heartbeats + 1 } }, true) := by
  unfold Heartbeat
  rw [h]

/-- C11, at a device id that is already registered. Register(devA) at time 100
and Register(devA) again at time 200: the stored record is the same before
and after the second call, so its last_seen is still 100 and was not
refreshed to 200. -/
theorem Register_existing_record_untouched :
    Load (Register NewDeviceRegistry 100 devA).devices idA =
        some { devA with LastSeen := 100 } ∧
    Load (Register (Register NewDeviceRegistry 100 devA) 200 devA).devices idA =
        some { devA with LastSeen := 100 } ∧
    Load (Register (Register NewDeviceRegistry 100 devA) 200 devA).devices idA ≠
        some { devA with LastSeen := 200 } := by
  decide

/-- C12. For a device id with no record, Heartbeat returns false and the
registry (device map, license map and every counter) is the one before the
call; DeviceHeartbeat delegates and does the same. -/
theorem Heartbeat_unknown (r : DeviceRegistry) (now : Int) (deviceID : String)
    (h : Load r.devices deviceID = none) :
    Heartbeat r now deviceID = (r, false) ∧ DeviceHeartbeat r now deviceID = (r, false) := by
  unfold DeviceHeartbeat Heartbeat
  rw [h]
  exact ⟨rfl, rfl⟩

/-- Witness for C12: a heartbeat for "unknown" with only `idA` registered. -/
theorem Heartbeat_unknown_witness :
    Heartbeat (Register NewDeviceRegistry 1 devA) 2 "unknown" =
        (Register NewDeviceRegistry 1 devA, false) ∧
      DeviceHeartbeat (Register NewDeviceRegistry 1 devA) 2 "unknown" =
        (Register NewDeviceRegistry 1 devA, false) :=
  Heartbeat_unknown (Register NewDeviceRegistry 1 devA) 2 "unknown" (by decide)

/-- C13. For a device id `X` with record `old`, Heartbeat at time `t` returns
true, the record of `X` becomes `old` with last_seen `t` and its other fields
as before, every other device id resolves as before, the license map is
unchanged and the device ids in the map are the same. -/
theorem Heartbeat_known (r : DeviceRegistry) (t : Int) (X : String) (old : Device)
    (h : Load r.devices X = some old) :
    (Heartbeat r t X).2 = true ∧
    Load (Heartbeat r t X).1.devices X = some { old with LastSeen := t } ∧
    (∀ k, k ≠ X → Load (Heartbeat r t X).1.devices k = Load r.devices k) ∧
    (Heartbeat r t X).1.licenses = r.licenses ∧
    (Heartbeat r t X).1.devices.map Prod.fst = r.devices.map Prod.fst := by
  rw [Heartbeat_existing r t X old h]
  refine ⟨rfl, Load_Store_self _ _ _, fun k hk => Load_Store_ne _ _ _ _ hk, rfl, ?_⟩
  show (Store r.devices X { old with LastSeen := t }).map Prod.fst = r.devices.map Prod.fst
  rw [keys_Store, if_pos (Load_some_mem_keys _ _ _ h)]

/-- Witness for C13: a heartbeat of `idA` at time 50 with `idA` and `idB`
registered. -/
theorem Heartbeat_known_witness :
    (Heartbeat (Register (Register NewDeviceRegistry 1 devA) 2 devB) 50 idA).2 = true ∧
    Load (Heartbeat (Register (Register NewDeviceRegistry 1 devA) 2 devB) 50 idA).1.devices idA =
      some { ({ devA with LastSeen := 1 } : Device) with LastSeen := 50 } ∧
    (∀ k, k ≠ idA →
      Load (Heartbeat (Register (Register NewDeviceRegistry 1 devA) 2 devB) 50 idA).1.devices k =
        Load (Register (Register NewDeviceRegistry 1 devA) 2 devB).devices k) ∧
    (Heartbeat (Register (Register NewDeviceRegistry 1 devA) 2 devB) 50 idA).1.licenses =
      (Register (Register NewDeviceRegistry 1 devA) 2 devB).licenses ∧
    (Heartbeat (Register (Register NewDeviceRegistry 1 devA) 2 devB) 50 idA).1.devices.map
        Prod.fst =
      (Register (Register NewDeviceRegistry 1 devA) 2 devB).devices.map Prod.fst :=
  Heartbeat_known (Register (Register NewDeviceRegistry 1 devA) 2 devB) 50 idA
    { devA with LastSeen := 1 } (by decide)

/-- C14. GetLicenseHolder is found with record `d` exactly when the license
map sends the code to a device id and the device map holds `d` under that id;
it is not found exactly when the license map has no entry for the code or the
id it records has no device record. -/
theorem GetLicenseHolder_two_hops (r : DeviceRegistry) (L : String) :
    (∀ d, (GetLicenseHolder r L).2 = some d ↔
      ∃ id, Load r.licenses L = some id ∧ Load r.devices id = some d) ∧
    ((GetLicenseHolder r L).2 = none ↔
      Load r.licenses L = none ∨
        ∃ id, Load r.licenses L = some id ∧ Load r.devices id = none) := by
  rw [GetLicenseHolder_snd]
  cases hl : Load r.licenses L with
  | none => simp
  | some id =>
    cases hd : Load r.devices id with
    | none => simp [hd]
    | some d0 => simp [hd]

/-! ## The sweep on the device list -/

theorem Delete_eq_filter {V : Type} (m : List (String × V)) (k : String) :
    Delete m k = m.filter (fun e => decide (e.1 ≠ k)) := by
  induction m with
  | nil => rfl
  | cons e rest ih =>
    obtain ⟨k', v⟩ := e
    by_cases h : k' = k
    · simp [Delete, h, ih]
    · simp [Delete, h, ih]

theorem cleanupFold_devices (now timeout : Int) (l : List (String × Device))
    (acc : DeviceRegistry × Int) :
    (l.foldl (cleanupVisit now timeout) acc).1.devices =
      acc.1.devices.filter (fun e =>
        !(l.any (fun x => decide (x.1 = e.1) && decide (timeSub now x.2.LastSeen > timeout)))) := by
  induction l generalizing acc with
  | nil => simp
  | cons x l ih =>
    rw [List.foldl_cons, ih, cleanupVisit_devices]
    by_cases hs : timeSub now x.2.LastSeen > timeout
    · rw [if_pos hs, Delete_eq_filter, List.filter_filter]
      apply List.filter_congr
      intro e _
      by_cases hk : x.1 = e.1
      · simp [hk, hs]
      · have hk2 : ¬ e.1 = x.1 := fun h => hk h.symm
        simp [hk, hk2, hs]
    · rw [if_neg hs]
      apply List.filter_congr
      intro e _
      simp [hs]

theorem cleanupFold_count (now timeout : Int) (l : List (String × Device))
    (acc : DeviceRegistry × Int) :
    (l.foldl (cleanupVisit now timeout) acc).2 =
      acc.2 + ((l.filter (fun e => decide (timeSub now e.2.LastSeen > timeout))).length : Int) := by
  induction l generalizing acc with
  | nil => simp
  | cons x l ih =>
    rw [List.foldl_cons, ih, cleanupVisit_count]
    by_cases hs : timeSub now x.2.LastSeen > timeout
    · simp only [hs, if_true, decide_True, List.filter_cons_of_pos, List.length_cons,
        Nat.cast_add, Nat.cast_one]
      omega
    · simp [hs]

/-- With one entry per device id, the sweep keeps exactly the entries that are
not older than the timeout. -/
theorem CleanupInactive_devices (r : DeviceRegistry) (now timeout : Int)
    (hn : (r.devices.map Prod.fst).Nodup) :
    (CleanupInactive r now timeout).1.devices =
      r.devices.filter (fun e => decide (timeSub now e.2.LastSeen ≤ timeout)) := by
  unfold CleanupInactive
  rw [cleanupFold_devices]
  apply List.filter_congr
  intro e he
  have hload : Load r.devices e.1 = some e.2 := mem_Load_of_nodup _ _ _ hn he
  by_cases hs : timeSub now e.2.LastSeen > timeout
  · have h1 : ¬ timeSub now e.2.LastSeen ≤ timeout := by omega
    have h2 : (r.devices.any (fun x => decide (x.1 = e.1) &&
        decide (timeSub now x.2.LastSeen > timeout))) = true := by
      rw [List.any_eq_true]
      exact ⟨e, he, by simp [hs]⟩
    simp only [h2, Bool.not_true, h1, decide_False]
  · have h1 : timeSub now e.2.LastSeen ≤ timeout := by omega
    have h2 : (r.devices.any (fun x => decide (x.1 = e.1) &&
        decide (timeSub now x.2.LastSeen > timeout))) = false := by
      rw [Bool.eq_false_iff]
      intro hany
      rw [List.any_eq_true] at hany
      obtain ⟨x, hx, hp⟩ := hany
      simp only [Bool.and_eq_true, decide_eq_true_eq] at hp
      have hx2 : Load r.devices x.1 = some x.2 := mem_Load_of_nodup _ _ _ hn hx
      rw [hp.1, hload] at hx2
      have hx3 : e.2 = x.2 := Option.some.inj hx2
      exact hs (hx3 ▸ hp.2)
    simp only [h2, Bool.not_false, h1, decide_True]

theorem timeSub_le_iff (now t d : Int) (hd1 : minDuration ≤ d) (hd2 : d < maxDuration) :
    timeSub now t ≤ d ↔ now - t ≤ d := by
  have h := timeSub_gt_iff now t d hd1 hd2
  constructor
  · intro h1
    by_contra h2
    have h3 : timeSub now t > d := h.mpr (by omega)
    omega
  · intro h1
    by_contra h2
    have h3 : now - t > d := h.mp (by omega)
    omega

/-! ## Eviction: the properties -/

/-- C15. With one entry per device id, CleanupInactive leaves exactly the prior
entries whose age `now.Sub(last_seen)` is at most the timeout, unchanged and
in place (an age equal to the timeout is kept), and returns the number of prior
entries whose age exceeds the timeout. For a timeout below the largest
Duration the age is the plain difference `now - last_seen`. -/
theorem CleanupInactive_evicts_exactly (r : DeviceRegistry) (now timeout : Int)
    (hn : (r.devices.map Prod.fst).Nodup) :
    (CleanupInactive r now timeout).1.devices =
      r.devices.filter (fun e => decide (timeSub now e.2.LastSeen ≤ timeout)) ∧
    (CleanupInactive r now timeout).2 =
      ((r.devices.filter (fun e => decide (timeSub now e.2.LastSeen > timeout))).length : Int) ∧
    (minDuration ≤ timeout → timeout < maxDuration →
      (CleanupInactive r now timeout).1.devices =
        r.devices.filter (fun e => decide (now - e.2.LastSeen ≤ timeout)) ∧
      (CleanupInactive r now timeout).2 =
        ((r.devices.filter (fun e => decide (now - e.2.LastSeen > timeout))).length : Int)) := by
  have hdev := CleanupInactive_devices r now timeout hn
  have hcount : (CleanupInactive r now timeout).2 =
      ((r.devices.filter (fun e => decide (timeSub now e.2.LastSeen > timeout))).length : Int) := by
    unfold CleanupInactive
    rw [cleanupFold_count]
    simp
  refine ⟨hdev, hcount, fun h1 h2 => ⟨?_, ?_⟩⟩
  · rw [hdev]
    apply List.filter_congr
    intro e _
    exact decide_eq_decide.mpr (timeSub_le_iff now e.2.LastSeen timeout h1 h2)
  · rw [hcount]
    have hf : r.devices.filter (fun e => decide (timeSub now e.2.LastSeen > timeout)) =
        r.devices.filter (fun e => decide (now - e.2.LastSeen > timeout)) := by
      apply List.filter_congr
      intro e _
      exact decide_eq_decide.mpr (timeSub_gt_iff now e.2.LastSeen timeout h1 h2)
    rw [hf]

/-- Witness for C15: a five-minute sweep at 5 min + 1 ns over `idA` (age
5 min + 1 ns), `idB` (age exactly 5 min) and `idC` (age 3 min + 1 ns) evicts
`idA` only. -/
theorem CleanupInactive_evicts_exactly_witness :
    ((CleanupInactive sampleThree (5 * Minute + 1) (5 * Minute)).1.devices =
        sampleThree.devices.filter
          (fun e => decide (timeSub (5 * Minute + 1) e.2.LastSeen ≤ 5 * Minute)) ∧
      (CleanupInactive sampleThree (5 * Minute + 1) (5 * Minute)).2 =
        ((sampleThree.devices.filter
          (fun e => decide (timeSub (5 * Minute + 1) e.2.LastSeen > 5 * Minute))).length : Int) ∧
      (minDuration ≤ 5 * Minute → 5 * Minute < maxDuration →
        (CleanupInactive sampleThree (5 * Minute + 1) (5 * Minute)).1.devices =
          sampleThree.devices.filter
            (fun e => decide (5 * Minute + 1 - e.2.LastSeen ≤ 5 * Minute)) ∧
        (CleanupInactive sampleThree (5 * Minute + 1) (5 * Minute)).2 =
          ((sampleThree.devices.filter
            (fun e => decide (5 * Minute + 1 - e.2.LastSeen > 5 * Minute))).length : Int))) ∧
    (CleanupInactive sampleThree (5 * Minute + 1) (5 * Minute)).1.devices.map Prod.fst =
      [idB, idC] ∧
    (CleanupInactive sampleThree (5 * Minute + 1) (5 * Minute)).2 = 1 :=
  ⟨CleanupInactive_evicts_exactly sampleThree (5 * Minute + 1) (5 * Minute) (by decide),
    by decide, by decide⟩

/-- C16. When the license map sends `L` to device id `X`, the record `d` of
`X` exists (so GetLicenseHolder(L) returns `d`) and `d` is older than the
timeout, then after CleanupInactive GetDevice(X) and GetLicenseHolder(L) are
both not-found. -/
theorem CleanupInactive_unassigns (r : DeviceRegistry) (now timeout : Int) (L X : String)
    (d : Device) (hl : Load r.licenses L = some X) (hd : Load r.devices X = some d)
    (hs : timeSub now d.LastSeen > timeout) :
    (GetLicenseHolder r L).2 = some d ∧
    (GetDevice (CleanupInactive r now timeout).1 X).2 = none ∧
    (GetLicenseHolder (CleanupInactive r now timeout).1 L).2 = none := by
  have hgone : Load (CleanupInactive r now timeout).1.devices X = none := by
    rw [CleanupInactive_devices_Load, if_pos ⟨(X, d), Load_eq_some_mem _ _ _ hd, rfl, hs⟩]
  refine ⟨?_, ?_, ?_⟩
  · rw [GetLicenseHolder_snd, hl]
    exact hd
  · rw [GetDevice_snd]
    exact hgone
  · rw [GetLicenseHolder_snd, CleanupInactive_licenses_Load, hl]
    simp only [Option.some_bind]
    split_ifs
    · rfl
    · exact hgone

/-- Witness for C16: `idB` holds L1 in `sampleThree`; a five-minute sweep at
ten minutes evicts it. -/
theorem CleanupInactive_unassigns_witness :
    (GetLicenseHolder sampleThree "L1").2 = some { devB with LastSeen := 1 } ∧
    (GetDevice (CleanupInactive sampleThree (10 * Minute) (5 * Minute)).1 idB).2 = none ∧
    (GetLicenseHolder (CleanupInactive sampleThree (10 * Minute) (5 * Minute)).1 "L1").2 =
      none :=
  CleanupInactive_unassigns sampleThree (10 * Minute) (5 * Minute) "L1" idB
    { devB with LastSeen := 1 } (by decide) (by decide) (by decide)

/-- C17 as stated fails. In the reachable registry `sampleTransferred` the
license map sends L1 to `idB`; a five-minute sweep at ten minutes evicts
`idB`, and afterwards the license map still sends L1 to `idB`, which has no
record any more. -/
theorem CleanupInactive_leaves_transferred_entry :
    Reachable sampleTransferred ∧
    Load sampleTransferred.licenses "L1" = some idB ∧
    Load sampleTransferred.devices idB = some { devBL2 with LastSeen := 2 } ∧
    timeSub (10 * Minute) 2 > 5 * Minute ∧
    Load (CleanupInactive sampleTransferred (10 * Minute) (5 * Minute)).1.devices idB = none ∧
    Load (CleanupInactive sampleTransferred (10 * Minute) (5 * Minute)).1.licenses "L1" =
      some idB :=
  ⟨Reachable.next 3 (Op.transfer ⟨tok1, "", idA, idB, "L1", 0⟩)
      (Reachable.next 2 (Op.register devBL2)
        (Reachable.next 1 (Op.register devA) Reachable.init)),
    by decide, by decide, by decide, by decide, by decide⟩

/-- C17, amended. In a reachable registry whose license map sends `L` to
device `X`, when CleanupInactive evicts `X` (its record `d` is older than the
timeout): the license map afterwards has no entry for `L` if `L` is the
license_code of `d`; if `d` carries another license_code the entry stays and
still names `X`; either way GetLicenseHolder(L) is not-found. -/
theorem CleanupInactive_license_entry (r : DeviceRegistry) (hr : Reachable r)
    (now timeout : Int) (L X : String) (d : Device)
    (hl : Load r.licenses L = some X) (hd : Load r.devices X = some d)
    (hs : timeSub now d.LastSeen > timeout) :
    (d.LicenseCode = L → Load (CleanupInactive r now timeout).1.licenses L = none) ∧
    (d.LicenseCode ≠ L → Load (CleanupInactive r now timeout).1.licenses L = some X) ∧
    (GetLicenseHolder (CleanupInactive r now timeout).1 L).2 = none := by
  have hwf := Reachable_WellFormed r hr
  have hmem : (X, d) ∈ r.devices := Load_eq_some_mem _ _ _ hd
  have hgone : Load (CleanupInactive r now timeout).1.devices X = none := by
    rw [CleanupInactive_devices_Load, if_pos ⟨(X, d), hmem, rfl, hs⟩]
  refine ⟨fun hL => ?_, fun hL => ?_, ?_⟩
  · rw [CleanupInactive_licenses_Load, hl]
    simp only [Option.some_bind]
    rw [if_pos ⟨(X, d), hmem, rfl, hL, hs⟩]
  · rw [CleanupInactive_licenses_Load, hl]
    simp only [Option.some_bind]
    rw [if_neg]
    rintro ⟨e, he, he1, he2, _⟩
    have hload : Load r.devices e.1 = some e.2 := mem_Load_of_nodup _ _ _ hwf.1 he
    rw [he1, hd] at hload
    exact hL ((Option.some.inj hload) ▸ he2)
  · rw [GetLicenseHolder_snd, CleanupInactive_licenses_Load, hl]
    simp only [Option.some_bind]
    split_ifs
    · rfl
    · exact hgone

/-- Witness for C17 amended: `idB` is evicted from `sampleTransferred`; its
record carries L2, so the entry for L2 goes, the entry for L1 stays, and both
licenses resolve to not-found. -/
theorem CleanupInactive_license_entry_witness :
    Load (CleanupInactive sampleTransferred (10 * Minute) (5 * Minute)).1.licenses "L2" =
      none ∧
    Load (CleanupInactive sampleTransferred (10 * Minute) (5 * Minute)).1.licenses "L1" =
      some idB ∧
    (GetLicenseHolder
      (CleanupInactive sampleTransferred (10 * Minute) (5 * Minute)).1 "L1").2 = none :=
  ⟨(CleanupInactive_license_entry sampleTransferred
      (Reachable.next 3 (Op.transfer ⟨tok1, "", idA, idB, "L1", 0⟩)
        (Reachable.next 2 (Op.register devBL2)
          (Reachable.next 1 (Op.register devA) Reachable.init)))
      (10 * Minute) (5 * Minute) "L2" idB { devBL2 with LastSeen := 2 }
      (by decide) (by decide) (by decide)).1 rfl,
    (CleanupInactive_license_entry sampleTransferred
      (Reachable.next 3 (Op.transfer ⟨tok1, "", idA, idB, "L1", 0⟩)
        (Reachable.next 2 (Op.register devBL2)
          (Reachable.next 1 (Op.register devA) Reachable.init)))
      (10 * Minute) (5 * Minute) "L1" idB { devBL2 with LastSeen := 2 }
      (by decide) (by decide) (by decide)).2.1 (by decide),
    (CleanupInactive_license_entry sampleTransferred
      (Reachable.next 3 (Op.transfer ⟨tok1, "", idA, idB, "L1", 0⟩)
        (Reachable.next 2 (Op.register devBL2)
          (Reachable.next 1 (Op.register devA) Reachable.init)))
      (10 * Minute) (5 * Minute) "L1" idB { devBL2 with LastSeen := 2 }
      (by decide) (by decide) (by decide)).2.2⟩

/-! ## RegisterDevice -/

theorem RegisterDevice_eq (r : DeviceRegistry) (now : Int) (d : Device) :
    RegisterDevice r now d =
      (Register r now d,
        if sliceInRange d.DeviceID 16 = true then Outcome.nil else Outcome.panic) := by
  unfold RegisterDevice
  cases sliceInRange d.DeviceID 16 <;> rfl

/-- C18, at the device id "A". RegisterDevice with a one-byte device id does
not return: after Register it logs `device.DeviceID[:16]`, which is out of
range, and the call aborts. The same happens for the empty id. -/
theorem RegisterDevice_short_id_aborts :
    (RegisterDevice NewDeviceRegistry 1 ⟨"A", "L1", "10.0.0.1", 7001, 0⟩).2 = Outcome.panic ∧
    (RegisterDevice NewDeviceRegistry 1 ⟨"", "L1", "10.0.0.1", 7001, 0⟩).2 = Outcome.panic := by
  decide

/-- C19, at the device id "A". RegisterDevice on the empty registry aborts, yet
the device map and the license map are no longer empty: the record of "A" and
the entry L1 -> "A" were stored before the abort. -/
theorem RegisterDevice_abort_mutates :
    (RegisterDevice NewDeviceRegistry 1 ⟨"A", "L1", "10.0.0.1", 7001, 0⟩).2 = Outcome.panic ∧
    (RegisterDevice NewDeviceRegistry 1 ⟨"A", "L1", "10.0.0.1", 7001, 0⟩).1.devices =
      [("A", ⟨"A", "L1", "10.0.0.1", 7001, 1⟩)] ∧
    (RegisterDevice NewDeviceRegistry 1 ⟨"A", "L1", "10.0.0.1", 7001, 0⟩).1.licenses =
      [("L1", "A")] ∧
    (RegisterDevice NewDeviceRegistry 1 ⟨"A", "L1", "10.0.0.1", 7001, 0⟩).1.devices ≠
      NewDeviceRegistry.devices ∧
    (RegisterDevice NewDeviceRegistry 1 ⟨"A", "L1", "10.0.0.1", 7001, 0⟩).1.licenses ≠
      NewDeviceRegistry.licenses := by
  decide

/-! ## The token bucket at one clock reading -/

theorem timeSub_self (t : Int) : timeSub t t = 0 := by
  unfold timeSub maxDuration minDuration
  simp

theorem timeSub_ge_of_le (t u d : Int) (hd : d ≤ maxDuration) (h : u + d ≤ t) :
    d ≤ timeSub t u := by
  unfold timeSub
  unfold maxDuration minDuration at *
  split_ifs <;> omega

theorem NewLimiter_full (t0 : Int) : HoldsTokens t0 2000 (NewLimiter 1000 2000) := by
  refine ⟨rfl, rfl, ?_⟩
  unfold Limiter.advance NewLimiter Second
  simp only
  have h : (0 : Int) ≤ max 0 (timeSub t0 0) := le_max_left _ _
  rw [min_def]
  split_ifs <;> omega

theorem Allow_of_HoldsTokens (t0 : Int) (k : Nat) (lim : Limiter) (hk : k + 1 ≤ 2000)
    (h : HoldsTokens t0 (k + 1) lim) :
    (lim.Allow t0).2 = true ∧ HoldsTokens t0 k (lim.Allow t0).1 ∧
      (lim.Allow t0).1.last = t0 ∧ (lim.Allow t0).1.tokens = (k : Int) * Second := by
  obtain ⟨h1, h2, h3⟩ := h
  have hle : Second ≤ lim.advance t0 := by
    rw [h3]
    unfold Second
    push_cast
    omega
  have hA : lim.Allow t0 = ({ lim with tokens := lim.advance t0 - Second, last := t0 }, true) := by
    unfold Limiter.Allow
    rw [if_pos hle]
  have htok : lim.advance t0 - Second = (k : Int) * Second := by
    rw [h3]
    unfold Second
    push_cast
    omega
  rw [hA]
  refine ⟨rfl, ⟨h1, h2, ?_⟩, rfl, htok⟩
  show min (lim.burst * Second) (lim.advance t0 - Second + max 0 (timeSub t0 t0) * lim.limit) =
    (k : Int) * Second
  rw [timeSub_self, htok, h2]
  unfold Second
  simp only [max_self, zero_mul, add_zero]
  rw [min_def]
  split_ifs <;> omega

theorem Allow_of_empty (t0 : Int) (lim : Limiter) (h : HoldsTokens t0 0 lim) :
    lim.Allow t0 = (lim, false) := by
  unfold Limiter.Allow
  rw [h.2.2, if_neg]
  unfold Second
  simp

theorem rateLimitMiddleware_admitted (h : APIHandler) (next : HandlerFunc) (now : Int)
    (ha : (h.limiter.Allow now).2 = true) :
    rateLimitMiddleware h next now =
      ({ h with service := (next h.service now).1, limiter := (h.limiter.Allow now).1 },
        (next h.service now).2) := by
  unfold rateLimitMiddleware
  rcases hA : h.limiter.Allow now with ⟨lim, b⟩
  rw [hA] at ha
  simp only at ha
  subst ha
  rfl

theorem rateLimitMiddleware_refused (h : APIHandler) (next : HandlerFunc) (now : Int)
    (ha : h.limiter.Allow now = (h.limiter, false)) :
    rateLimitMiddleware h next now = (h, rateLimitExceeded) := by
  unfold rateLimitMiddleware
  rw [ha]

/-- While whole tokens last, requests served at one clock reading all reach
their handlers. -/
theorem serveAt_admits (t0 : Int) (nexts : List HandlerFunc) :
    ∀ (h : APIHandler) (k : Nat), HoldsTokens t0 k h.limiter → nexts.length ≤ k → k ≤ 2000 →
      (serveAt h t0 nexts).1.service = (runHandlers h.service t0 nexts).1 ∧
      (serveAt h t0 nexts).2 = (runHandlers h.service t0 nexts).2 ∧
      HoldsTokens t0 (k - nexts.length) (serveAt h t0 nexts).1.limiter ∧
      (nexts ≠ [] → (serveAt h t0 nexts).1.limiter.last = t0 ∧
        (serveAt h t0 nexts).1.limiter.tokens = ((k - nexts.length : Nat) : Int) * Second) := by
  induction nexts with
  | nil =>
    intro h k hh _ _
    exact ⟨rfl, rfl, hh, fun hne => absurd rfl hne⟩
  | cons next rest ih =>
    intro h k hh hlen hk
    obtain ⟨k', rfl⟩ : ∃ k', k = k' + 1 := ⟨k - 1, by simp at hlen; omega⟩
    obtain ⟨ha, hh', hlast, htok⟩ := Allow_of_HoldsTokens t0 k' h.limiter hk hh
    have hm := rateLimitMiddleware_admitted h next t0 ha
    have hlen' : rest.length ≤ k' := by simp at hlen; omega
    obtain ⟨i1, i2, i3, i4⟩ := ih
      { h with service := (next h.service t0).1, limiter := (h.limiter.Allow t0).1 } k' hh' hlen'
      (by omega)
    have hsub : k' + 1 - (next :: rest).length = k' - rest.length := by simp
    simp only [serveAt, runHandlers, hm, hsub]
    refine ⟨i1, by rw [i2], i3, fun _ => ?_⟩
    by_cases hr : rest = []
    · subst hr
      simp only [serveAt, List.length_nil, Nat.sub_zero]
      exact ⟨hlast, htok⟩
    · exact i4 hr

/-! ## Rate limiting: the property -/

/-- C20. The handler is built with a limiter of 1000 per second and burst 2000
that is in front of every route. From the full bucket, 2000 requests served at
one clock reading `t0` (to any routes) all reach their handlers: the service
state and the responses are those of running the handlers directly. A further
request at `t0` gets status 429 and leaves the handler state, the service
included, untouched whatever its route handler is. A request at any time `t1`
at least one refill interval (one millisecond) after `t0` reaches its handler
again. -/
theorem rateLimit_burst (service : DeviceRegistry) (t0 t1 : Int) (nexts : List HandlerFunc)
    (next2001 later : HandlerFunc) (hlen : nexts.length = 2000)
    (ht : t0 + refillInterval 1000 ≤ t1) :
    (NewAPIHandler service).limiter = NewLimiter 1000 2000 ∧
    (serveAt (NewAPIHandler service) t0 nexts).1.service = (runHandlers service t0 nexts).1 ∧
    (serveAt (NewAPIHandler service) t0 nexts).2 = (runHandlers service t0 nexts).2 ∧
    rateLimitMiddleware (serveAt (NewAPIHandler service) t0 nexts).1 next2001 t0 =
      ((serveAt (NewAPIHandler service) t0 nexts).1, rateLimitExceeded) ∧
    rateLimitExceeded.status = 429 ∧
    (rateLimitMiddleware (serveAt (NewAPIHandler service) t0 nexts).1 later t1).2 =
      (later (serveAt (NewAPIHandler service) t0 nexts).1.service t1).2 ∧
    (rateLimitMiddleware (serveAt (NewAPIHandler service) t0 nexts).1 later t1).1.service =
      (later (serveAt (NewAPIHandler service) t0 nexts).1.service t1).1 := by
  have hne : nexts ≠ [] := by
    intro h
    rw [h] at hlen
    exact absurd hlen (by decide)
  obtain ⟨h1, h2, h3, h4⟩ := serveAt_admits t0 nexts (NewAPIHandler service) 2000
    (NewLimiter_full t0) (by omega) (by omega)
  obtain ⟨hlast, htok⟩ := h4 hne
  have hzero : 2000 - nexts.length = 0 := by omega
  rw [hzero] at h3 htok
  have hrefused := rateLimitMiddleware_refused (serveAt (NewAPIHandler service) t0 nexts).1
    next2001 t0 (Allow_of_empty t0 _ h3)
  have hallow : ((serveAt (NewAPIHandler service) t0 nexts).1.limiter.Allow t1).2 = true := by
    have hge : (1000000 : Int) ≤ timeSub t1 t0 := by
      apply timeSub_ge_of_le
      · unfold maxDuration
        omega
      · have hr : refillInterval 1000 = 1000000 := by decide
        rw [hr] at ht
        exact ht
    have hadv : Second ≤ (serveAt (NewAPIHandler service) t0 nexts).1.limiter.advance t1 := by
      unfold Limiter.advance
      rw [hlast, htok, h3.1, h3.2.1]
      have hmax : timeSub t1 t0 ≤ max 0 (timeSub t1 t0) := le_max_right _ _
      unfold Second
      rw [min_def]
      split_ifs <;> omega
    unfold Limiter.Allow
    rw [if_pos hadv]
  have hlater := rateLimitMiddleware_admitted (serveAt (NewAPIHandler service) t0 nexts).1
    later t1 hallow
  refine ⟨rfl, h1, h2, hrefused, rfl, ?_, ?_⟩
  · rw [hlater]
  · rw [hlater]

/-- Witness for C20: 2000 requests at time 0 on the empty registry, a 2001st
at time 0, and one more a millisecond later. -/
theorem rateLimit_burst_witness :
    (NewAPIHandler NewDeviceRegistry).limiter = NewLimiter 1000 2000 ∧
    (serveAt (NewAPIHandler NewDeviceRegistry) 0 (List.replicate 2000 sampleHandler)).1.service =
      (runHandlers NewDeviceRegistry 0 (List.replicate 2000 sampleHandler)).1 ∧
    (serveAt (NewAPIHandler NewDeviceRegistry) 0 (List.replicate 2000 sampleHandler)).2 =
      (runHandlers NewDeviceRegistry 0 (List.replicate 2000 sampleHandler)).2 ∧
    rateLimitMiddleware
        (serveAt (NewAPIHandler NewDeviceRegistry) 0 (List.replicate 2000 sampleHandler)).1
        sampleHandler 0 =
      ((serveAt (NewAPIHandler NewDeviceRegistry) 0 (List.replicate 2000 sampleHandler)).1,
        rateLimitExceeded) ∧
    rateLimitExceeded.status = 429 ∧
    (rateLimitMiddleware
        (serveAt (NewAPIHandler NewDeviceRegistry) 0 (List.replicate 2000 sampleHandler)).1
        sampleHandler 1000000).2 =
      (sampleHandler
        (serveAt (NewAPIHandler NewDeviceRegistry) 0
          (List.replicate 2000 sampleHandler)).1.service 1000000).2 ∧
    (rateLimitMiddleware
        (serveAt (NewAPIHandler NewDeviceRegistry) 0 (List.replicate 2000 sampleHandler)).1
        sampleHandler 1000000).1.service =
      (sampleHandler
        (serveAt (NewAPIHandler NewDeviceRegistry) 0
          (List.replicate 2000 sampleHandler)).1.service 1000000).1 :=
  rateLimit_burst NewDeviceRegistry 0 1000000 (List.replicate 2000 sampleHandler)
    sampleHandler sampleHandler (List.length_replicate 2000 sampleHandler) (by decide)

/-! ## Repeating a call -/

theorem cleanupFold_noop (now timeout : Int) (l : List (String × Device))
    (acc : DeviceRegistry × Int) (h : ∀ e ∈ l, ¬ timeSub now e.2.LastSeen > timeout) :
    l.foldl (cleanupVisit now timeout) acc = acc := by
  induction l generalizing acc with
  | nil => rfl
  | cons x l ih =>
    rw [List.foldl_cons]
    have hx : cleanupVisit now timeout acc x = acc := by
      unfold cleanupVisit
      rw [if_neg (h x (List.mem_cons_self _ _))]
    rw [hx]
    exact ih acc (fun e he => h e (List.mem_cons_of_mem _ he))

theorem CleanupInactive_survivors (r : DeviceRegistry) (now timeout : Int) :
    ∀ e ∈ (CleanupInactive r now timeout).1.devices, ¬ timeSub now e.2.LastSeen > timeout := by
  intro e he hs
  unfold CleanupInactive at he
  rw [cleanupFold_devices] at he
  obtain ⟨hmem, hp⟩ := List.mem_filter.mp he
  have hany : (r.devices.any (fun x => decide (x.1 = e.1) &&
      decide (timeSub now x.2.LastSeen > timeout))) = true := by
    rw [List.any_eq_true]
    exact ⟨e, hmem, by simp [hs]⟩
  rw [hany] at hp
  exact absurd hp (by decide)

/-- C29. A second CleanupInactive with the same timeout at the same clock
reading, run directly after the first, returns 0 and returns the registry the
first run left: device map, license map and all counters. -/
theorem CleanupInactive_idempotent (r : DeviceRegistry) (now timeout : Int) :
    CleanupInactive (CleanupInactive r now timeout).1 now timeout =
      ((CleanupInactive r now timeout).1, 0) := by
  have h := CleanupInactive_survivors r now timeout
  generalize (CleanupInactive r now timeout).1 = r1 at h
  unfold CleanupInactive
  exact cleanupFold_noop now timeout r1.devices (r1, 0) h

/-- C28. Where records sit under their own device id, a RequestTokenTransfer
with `from_device ≠ to_device` that returned nil, issued again on the resulting
registry (at any clock reading), returns the holder-mismatch error that names
`to_device` as current holder, and `to_device` still holds the license. -/
theorem RequestTokenTransfer_twice (r : DeviceRegistry) (now now2 : Int) (q : TokenTransfer)
    (hk : KeysMatch r) (hne : q.FromDevice ≠ q.ToDevice)
    (hok : (RequestTokenTransfer r now q).2 = Outcome.nil) :
    (RequestTokenTransfer (RequestTokenTransfer r now q).1 now2 q).2 =
      Outcome.err ("device " ++ q.FromDevice ++ " does not hold license " ++ q.LicenseCode ++
        " (current holder: " ++ q.ToDevice ++ ")") ∧
    holderOf (RequestTokenTransfer (RequestTokenTransfer r now q).1 now2 q).1 q.LicenseCode =
      some q.ToDevice := by
  obtain ⟨hs, hv⟩ := (RequestTokenTransfer_nil_iff r now q).mp hok
  obtain ⟨_, ⟨t, ht, _⟩, _⟩ := (validateTokenTransfer_eq_none_iff r now q).mp hv
  have hid : t.DeviceID = q.ToDevice := KeysMatch_Load r hk _ _ ht
  have hdev : (RequestTokenTransfer r now q).1.devices = r.devices :=
    RequestTokenTransfer_devices r now q
  have hlic : Load (RequestTokenTransfer r now q).1.licenses q.LicenseCode = some q.ToDevice := by
    rw [RequestTokenTransfer_licenses, if_pos hok, Load_Store_self]
  have hk1 : KeysMatch (RequestTokenTransfer r now q).1 := by
    unfold KeysMatch
    rw [hdev]
    exact hk
  have hh1 : holderOf (RequestTokenTransfer r now q).1 q.LicenseCode = some q.ToDevice :=
    (holderOf_some_iff _ hk1 _ _).mpr ⟨hlic, t, by rw [hdev]; exact ht⟩
  have hv2 : (validateTokenTransfer (RequestTokenTransfer r now q).1 now2 q).2 =
      some ("device " ++ q.FromDevice ++ " does not hold license " ++ q.LicenseCode ++
        " (current holder: " ++ q.ToDevice ++ ")") := by
    rw [validateTokenTransfer_snd, hlic]
    simp only [Option.some_bind, hdev, ht, hid]
    rw [if_pos (fun h => hne h.symm)]
  have hout : (RequestTokenTransfer (RequestTokenTransfer r now q).1 now2 q).2 =
      Outcome.err ("device " ++ q.FromDevice ++ " does not hold license " ++ q.LicenseCode ++
        " (current holder: " ++ q.ToDevice ++ ")") := by
    rw [RequestTokenTransfer_snd _ _ _ hs, hv2]
  refine ⟨hout, ?_⟩
  have hrej : (RequestTokenTransfer (RequestTokenTransfer r now q).1 now2 q).2 ≠ Outcome.nil := by
    rw [hout]
    exact fun h => Outcome.noConfusion h
  obtain ⟨h1, h2⟩ := RequestTokenTransfer_rejected_maps _ now2 q hrej
  rw [holderOf_congr _ _ h1 h2]
  exact hh1

/-- Witness for C28: the admitted transfer of L1 from `idB` to `idA`, twice. -/
theorem RequestTokenTransfer_twice_witness :
    (RequestTokenTransfer
        (RequestTokenTransfer (Register (Register NewDeviceRegistry 1 devA) 2 devB) 3
          ⟨tok1, "", idB, idA, "L1", 0⟩).1 3 ⟨tok1, "", idB, idA, "L1", 0⟩).2 =
      Outcome.err ("device " ++ idB ++ " does not hold license " ++ "L1" ++
        " (current holder: " ++ idA ++ ")") ∧
    holderOf (RequestTokenTransfer
        (RequestTokenTransfer (Register (Register NewDeviceRegistry 1 devA) 2 devB) 3
          ⟨tok1, "", idB, idA, "L1", 0⟩).1 3 ⟨tok1, "", idB, idA, "L1", 0⟩).1 "L1" =
      some idA :=
  RequestTokenTransfer_twice (Register (Register NewDeviceRegistry 1 devA) 2 devB) 3 3
    ⟨tok1, "", idB, idA, "L1", 0⟩ (by decide) (by decide) (by decide)

/-! ## Counting the license entries -/

theorem length_Store {V : Type} (m : List (String × V)) (k : String) (v : V) :
    (Store m k v).length = if (Load m k).isSome then m.length else m.length + 1 := by
  induction m with
  | nil => simp [Store, Load]
  | cons e rest ih =>
    obtain ⟨k', v'⟩ := e
    by_cases h : k' = k
    · simp [Store, Load, h]
    · simp only [Store, Load, h, if_false, List.length_cons, ih]
      split_ifs <;> rfl

theorem Load_none_of_not_mem {V : Type} (m : List (String × V)) (k : String)
    (h : k ∉ m.map Prod.fst) : Load m k = none := by
  cases hl : Load m k with
  | none => rfl
  | some v => exact absurd (List.mem_map.mpr ⟨(k, v), Load_eq_some_mem m k v hl, rfl⟩) h

theorem Delete_of_not_mem {V : Type} (m : List (String × V)) (k : String)
    (h : k ∉ m.map Prod.fst) : Delete m k = m := by
  induction m with
  | nil => rfl
  | cons e rest ih =>
    obtain ⟨k', v'⟩ := e
    simp only [List.map_cons, List.mem_cons, not_or] at h
    have hk : ¬ k' = k := fun hk => h.1 hk.symm
    simp only [Delete, hk, if_false, ih h.2]

theorem length_Delete {V : Type} (m : List (String × V)) (k : String) (v : V)
    (hn : (m.map Prod.fst).Nodup) (h : Load m k = some v) :
    (Delete m k).length + 1 = m.length := by
  induction m with
  | nil => simp [Load] at h
  | cons e rest ih =>
    obtain ⟨k', v'⟩ := e
    simp only [List.map_cons, List.nodup_cons] at hn
    by_cases hk : k' = k
    · subst hk
      simp only [Delete, if_true, List.length_cons]
      rw [Delete_of_not_mem rest k' hn.1]
    · simp only [Load, hk, if_false] at h
      simp only [Delete, hk, if_false, List.length_cons, ih hn.2 h]

theorem GetDevice_stats (r : DeviceRegistry) (deviceID : String) :
    (GetDevice r deviceID).1.stats.TotalLicenses = r.stats.TotalLicenses := by
  unfold GetDevice
  cases Load r.devices deviceID <;> rfl

theorem GetLicenseHolder_stats (r : DeviceRegistry) (licenseCode : String) :
    (GetLicenseHolder r licenseCode).1.stats.TotalLicenses = r.stats.TotalLicenses := by
  unfold GetLicenseHolder
  cases Load r.licenses licenseCode with
  | none => rfl
  | some deviceID =>
    simp only
    cases Load r.devices deviceID <;> rfl

theorem validateTokenTransfer_stats (r : DeviceRegistry) (now : Int) (q : TokenTransfer) :
    (validateTokenTransfer r now q).1.stats.TotalLicenses = r.stats.TotalLicenses := by
  unfold validateTokenTransfer GetLicenseHolder GetDevice
  cases hl : Load r.licenses q.LicenseCode with
  | none => rfl
  | some id =>
    cases hd : Load r.devices id with
    | none => simp [hd]
    | some h =>
      by_cases hf : h.DeviceID = q.FromDevice
      · cases ht : Load r.devices q.ToDevice with
        | none => simp [hd, hf, ht]
        | some t =>
          by_cases hact : 10 * Minute < timeSince now t.LastSeen
          · simp [hd, hf, ht, hact]
          · by_cases hdata : q.TokenData = ""
            · simp [hd, hf, ht, hact, hdata]
            · cases hv : validateTokenData q.TokenData q.LicenseCode <;>
                simp [hd, hf, ht, hact, hdata, hv]
      · simp [hd, hf]

theorem RequestTokenTransfer_stats (r : DeviceRegistry) (now : Int) (q : TokenTransfer) :
    (RequestTokenTransfer r now q).1.stats.TotalLicenses = r.stats.TotalLicenses := by
  have hv := validateTokenTransfer_stats r now q
  unfold RequestTokenTransfer
  split_ifs
  · rfl
  · rcases hv2 : validateTokenTransfer r now q with ⟨r1, _ | err⟩
    · rw [hv2] at hv
      exact hv
    · rw [hv2] at hv
      exact hv

theorem Register_LicensesCounted (r : DeviceRegistry) (now : Int) (d : Device)
    (h : LicensesCounted r) : LicensesCounted (Register r now d) := by
  unfold LicensesCounted at *
  rw [Register_stats, Register_licenses, length_Store]
  simp only
  split_ifs <;> (push_cast; omega)

theorem Heartbeat_LicensesCounted (r : DeviceRegistry) (now : Int) (deviceID : String)
    (h : LicensesCounted r) : LicensesCounted (Heartbeat r now deviceID).1 := by
  unfold Heartbeat
  cases Load r.devices deviceID with
  | none => exact h
  | some device => exact h

theorem RequestTokenTransfer_LicensesCounted (r : DeviceRegistry) (now : Int)
    (q : TokenTransfer) (h : LicensesCounted r) :
    LicensesCounted (RequestTokenTransfer r now q).1 := by
  unfold LicensesCounted at *
  rw [RequestTokenTransfer_stats, RequestTokenTransfer_licenses]
  split_ifs with hok
  · obtain ⟨_, hv⟩ := (RequestTokenTransfer_nil_iff r now q).mp hok
    obtain ⟨⟨id, _, hid, _, _⟩, _, _⟩ := (validateTokenTransfer_eq_none_iff r now q).mp hv
    rw [length_Store, hid]
    exact h
  · exact h

theorem cleanupVisit_LicensesCounted (now timeout : Int) (acc : DeviceRegistry × Int)
    (x : String × Device) (hwf : WellFormed acc.1) (h : LicensesCounted acc.1) :
    LicensesCounted (cleanupVisit now timeout acc x).1 := by
  unfold LicensesCounted at *
  unfold cleanupVisit
  by_cases hs : timeSub now x.2.LastSeen > timeout
  · simp only [hs, if_true]
    cases hl : Load acc.1.licenses x.2.LicenseCode with
    | none => exact h
    | some holderID =>
      by_cases hh : holderID = x.1
      · have hlen := length_Delete acc.1.licenses x.2.LicenseCode holderID hwf.2.1 hl
        simp only [hh, if_true]
        omega
      · simp only [hh, if_false]
        exact h
  · simp only [hs, if_false]
    exact h

theorem cleanupFold_LicensesCounted (now timeout : Int) (l : List (String × Device))
    (acc : DeviceRegistry × Int) (hwf : WellFormed acc.1) (h : LicensesCounted acc.1) :
    LicensesCounted (l.foldl (cleanupVisit now timeout) acc).1 := by
  induction l generalizing acc with
  | nil => exact h
  | cons x l ih =>
    rw [List.foldl_cons]
    exact ih _ (cleanupVisit_WellFormed now timeout acc x hwf)
      (cleanupVisit_LicensesCounted now timeout acc x hwf h)

theorem step_LicensesCounted (r : DeviceRegistry) (now : Int) (op : Op) (hwf : WellFormed r)
    (h : LicensesCounted r) : LicensesCounted (step r now op) := by
  cases op with
  | register device => exact Register_LicensesCounted r now device h
  | heartbeat deviceID => exact Heartbeat_LicensesCounted r now deviceID h
  | getDevice deviceID =>
    unfold LicensesCounted at *
    show (GetDevice r deviceID).1.stats.TotalLicenses =
      ((GetDevice r deviceID).1.licenses.length : Int)
    rw [GetDevice_stats, (GetDevice_maps r deviceID).2]
    exact h
  | getLicenseHolder licenseCode =>
    unfold LicensesCounted at *
    show (GetLicenseHolder r licenseCode).1.stats.TotalLicenses =
      ((GetLicenseHolder r licenseCode).1.licenses.length : Int)
    rw [GetLicenseHolder_stats, (GetLicenseHolder_maps r licenseCode).2]
    exact h
  | transfer q => exact RequestTokenTransfer_LicensesCounted r now q h
  | cleanup timeout => exact cleanupFold_LicensesCounted now timeout r.devices (r, 0) hwf h

/-- C26. In every registry reachable from the empty one by Register,
Heartbeat, GetDevice, GetLicenseHolder, RequestTokenTransfer and
CleanupInactive calls, TotalLicenses equals the number of entries of the
license map. -/
theorem TotalLicenses_counts_entries (r : DeviceRegistry) (hr : Reachable r) :
    r.stats.TotalLicenses = (r.licenses.length : Int) := by
  induction hr with
  | init => rfl
  | next now op hprev ih =>
    exact step_LicensesCounted _ now op (Reachable_WellFormed _ hprev) ih

/-- Witness for C26: after two registrations, a transfer and a sweep that
leaves one license entry behind. -/
theorem TotalLicenses_counts_entries_witness :
    (step sampleTransferred (10 * Minute) (Op.cleanup (5 * Minute))).stats.TotalLicenses =
      ((step sampleTransferred (10 * Minute) (Op.cleanup (5 * Minute))).licenses.length : Int) :=
  TotalLicenses_counts_entries _
    (Reachable.next (10 * Minute) (Op.cleanup (5 * Minute))
      (Reachable.next 3 (Op.transfer ⟨tok1, "", idA, idB, "L1", 0⟩)
        (Reachable.next 2 (Op.register devBL2)
          (Reachable.next 1 (Op.register devA) Reachable.init))))

/-! ## The record of a holder -/

theorem ReachableKeeping_Reachable (r : DeviceRegistry) (h : ReachableKeeping r) :
    Reachable r := by
  induction h with
  | init => exact Reachable.init
  | next now op _ _ ih => exact Reachable.next now op ih

theorem step_HolderLicenseMatch (r : DeviceRegistry) (now : Int) (op : Op)
    (hwf : WellFormed r) (hm : HolderLicenseMatch r) (hkeep : KeepsLicense r now op) :
    HolderLicenseMatch (step r now op) := by
  intro L id hl
  cases op with
  | register d =>
    have hl2 : Load (Register r now d).licenses L = some id := hl
    show ∃ d', Load (Register r now d).devices id = some d' ∧ d'.LicenseCode = L
    rw [Register_licenses] at hl2
    by_cases hL : L = d.LicenseCode
    · rw [hL, Load_Store_self] at hl2
      have hid : d.DeviceID = id := Option.some.inj hl2
      rw [← hid, Register_Load_self, hL]
      cases ho : Load r.devices d.DeviceID with
      | none => exact ⟨_, rfl, rfl⟩
      | some old => exact ⟨old, rfl, hkeep old ho⟩
    · rw [Load_Store_ne _ _ _ _ hL] at hl2
      obtain ⟨d0, hd0, hd0L⟩ := hm L id hl2
      refine ⟨d0, ?_, hd0L⟩
      by_cases hx : id = d.DeviceID
      · rw [hx, Register_Load_self, ← hx, hd0]
      · rw [Register_Load_ne _ _ _ _ hx]
        exact hd0
  | heartbeat deviceID =>
    have hl2 : Load (Heartbeat r now deviceID).1.licenses L = some id := hl
    show ∃ d', Load (Heartbeat r now deviceID).1.devices id = some d' ∧ d'.LicenseCode = L
    rw [Heartbeat_licenses] at hl2
    obtain ⟨d0, hd0, hd0L⟩ := hm L id hl2
    rw [Heartbeat_Load, hd0]
    split_ifs
    · exact ⟨_, rfl, hd0L⟩
    · exact ⟨d0, rfl, hd0L⟩
  | getDevice deviceID =>
    have hl2 : Load (GetDevice r deviceID).1.licenses L = some id := hl
    show ∃ d', Load (GetDevice r deviceID).1.devices id = some d' ∧ d'.LicenseCode = L
    rw [(GetDevice_maps r deviceID).2] at hl2
    rw [(GetDevice_maps r deviceID).1]
    exact hm L id hl2
  | getLicenseHolder licenseCode =>
    have hl2 : Load (GetLicenseHolder r licenseCode).1.licenses L = some id := hl
    show ∃ d', Load (GetLicenseHolder r licenseCode).1.devices id = some d' ∧
      d'.LicenseCode = L
    rw [(GetLicenseHolder_maps r licenseCode).2] at hl2
    rw [(GetLicenseHolder_maps r licenseCode).1]
    exact hm L id hl2
  | transfer q =>
    have hl2 : Load (RequestTokenTransfer r now q).1.licenses L = some id := hl
    show ∃ d', Load (RequestTokenTransfer r now q).1.devices id = some d' ∧
      d'.LicenseCode = L
    rw [RequestTokenTransfer_devices]
    rw [RequestTokenTransfer_licenses] at hl2
    by_cases hok : (RequestTokenTransfer r now q).2 = Outcome.nil
    · rw [if_pos hok] at hl2
      by_cases hL : L = q.LicenseCode
      · rw [hL, Load_Store_self] at hl2
        have hid : q.ToDevice = id := Option.some.inj hl2
        obtain ⟨_, hv⟩ := (RequestTokenTransfer_nil_iff r now q).mp hok
        obtain ⟨_, ⟨t, ht, _⟩, _⟩ := (validateTokenTransfer_eq_none_iff r now q).mp hv
        rw [← hid, hL]
        exact ⟨t, ht, hkeep hok t ht⟩
      · rw [Load_Store_ne _ _ _ _ hL] at hl2
        exact hm L id hl2
    · rw [if_neg hok] at hl2
      exact hm L id hl2
  | cleanup timeout =>
    have hl2 : Load (CleanupInactive r now timeout).1.licenses L = some id := hl
    show ∃ d', Load (CleanupInactive r now timeout).1.devices id = some d' ∧
      d'.LicenseCode = L
    rw [CleanupInactive_licenses_Load] at hl2
    cases hl0 : Load r.licenses L with
    | none =>
      rw [hl0] at hl2
      exact Option.noConfusion hl2
    | some id0 =>
      rw [hl0] at hl2
      simp only [Option.some_bind] at hl2
      split_ifs at hl2 with hev
      have hid : id0 = id := Option.some.inj hl2
      subst hid
      obtain ⟨d0, hd0, hd0L⟩ := hm L id0 hl0
      refine ⟨d0, ?_, hd0L⟩
      rw [CleanupInactive_devices_Load, if_neg]
      · exact hd0
      · rintro ⟨e, he, he1, he2⟩
        have hload : Load r.devices e.1 = some e.2 := mem_Load_of_nodup _ _ _ hwf.1 he
        rw [he1, hd0] at hload
        have he3 : d0 = e.2 := Option.some.inj hload
        exact hev ⟨e, he, he1, he3 ▸ hd0L, he2⟩

theorem ReachableKeeping_HolderLicenseMatch (r : DeviceRegistry) (h : ReachableKeeping r) :
    HolderLicenseMatch r := by
  induction h with
  | init =>
    intro L id hl
    exact Option.noConfusion hl
  | next now op hprev hkeep ih =>
    exact step_HolderLicenseMatch _ now op
      (Reachable_WellFormed _ (ReachableKeeping_Reachable _ hprev)) ih hkeep

/-- C27 as stated fails. In the reachable registry `sampleTransferred`
(Register `idA` under L1, Register `idB` under L2, admitted transfer of L1 from
`idA` to `idB`) GetLicenseHolder("L1") returns the record of `idB`, whose
license_code is L2. -/
theorem holder_record_other_license :
    Reachable sampleTransferred ∧
    (GetLicenseHolder sampleTransferred "L1").2 = some { devBL2 with LastSeen := 2 } ∧
    ({ devBL2 with LastSeen := 2 } : Device).LicenseCode ≠ "L1" :=
  ⟨Reachable.next 3 (Op.transfer ⟨tok1, "", idA, idB, "L1", 0⟩)
      (Reachable.next 2 (Op.register devBL2)
        (Reachable.next 1 (Op.register devA) Reachable.init)),
    by decide, by decide⟩

/-- C27, amended. Whenever GetLicenseHolder(L) returns a record `d`: in every
reachable registry `d` is the record stored under the device id that the
license map records for `L`, and that id is `d.device_id`; and `d.license_code`
equals `L` in every registry reached by calls in which each Register is of a
device id with no record or with a record under the same license code and each
admitted transfer goes to a device registered under the transferred license. -/
theorem holder_record (r : DeviceRegistry) (L : String) (d : Device)
    (hh : (GetLicenseHolder r L).2 = some d) :
    (Reachable r →
      Load r.licenses L = some d.DeviceID ∧ Load r.devices d.DeviceID = some d) ∧
    (ReachableKeeping r → d.LicenseCode = L) := by
  rw [GetLicenseHolder_snd] at hh
  cases hl : Load r.licenses L with
  | none =>
    rw [hl] at hh
    exact Option.noConfusion hh
  | some id =>
    rw [hl] at hh
    have hd : Load r.devices id = some d := hh
    constructor
    · intro hr
      have hid : d.DeviceID = id :=
        KeysMatch_Load r (Reachable_WellFormed r hr).2.2 id d hd
      rw [hid]
      exact ⟨rfl, hd⟩
    · intro hr
      obtain ⟨d0, hd0, hd0L⟩ := ReachableKeeping_HolderLicenseMatch r hr L id hl
      rw [hd] at hd0
      rw [Option.some.inj hd0]
      exact hd0L

/-- Witness for C27 amended: `idA` registers under L1, then `idB` does. -/
theorem holder_record_witness :
    (Load (step (step NewDeviceRegistry 1 (Op.register devA)) 2 (Op.register devB)).licenses
        "L1" = some ({ devB with LastSeen := 2 } : Device).DeviceID ∧
      Load (step (step NewDeviceRegistry 1 (Op.register devA)) 2 (Op.register devB)).devices
        ({ devB with LastSeen := 2 } : Device).DeviceID = some { devB with LastSeen := 2 }) ∧
    ({ devB with LastSeen := 2 } : Device).LicenseCode = "L1" :=
  ⟨(holder_record (step (step NewDeviceRegistry 1 (Op.register devA)) 2 (Op.register devB))
      "L1" { devB with LastSeen := 2 } (by decide)).1
      (Reachable.next 2 (Op.register devB)
        (Reachable.next 1 (Op.register devA) Reachable.init)),
    (holder_record (step (step NewDeviceRegistry 1 (Op.register devA)) 2 (Op.register devB))
      "L1" { devB with LastSeen := 2 } (by decide)).2
      (ReachableKeeping.next 2 (Op.register devB)
        (ReachableKeeping.next 1 (Op.register devA) ReachableKeeping.init
          (fun old h => Option.noConfusion h))
        (fun old h => by
          have h2 : Load (step NewDeviceRegistry 1 (Op.register devA)).devices
            devB.DeviceID = none := by decide
          rw [h2] at h
          exact Option.noConfusion h))⟩

/-! ## The marker scan against first-substring-index search -/

theorem markerAt_eq (s : List Nat) (cs : List Nat) :
    ∀ i, i + cs.length ≤ s.length → markerAt s i cs = some (cs.isPrefixOf (s.drop i)) := by
  induction cs with
  | nil =>
    intro i _
    simp [markerAt]
  | cons c rest ih =>
    intro i hi
    have hlt : i < s.length := by
      simp only [List.length_cons] at hi
      omega
    have hdrop : s.drop i = s[i] :: s.drop (i + 1) := List.drop_eq_getElem_cons hlt
    have hget : s[i]? = some s[i] := List.getElem?_eq_getElem hlt
    have hrest := ih (i + 1) (by simp only [List.length_cons] at hi; omega)
    simp only [markerAt, hget, hdrop, List.isPrefixOf]
    by_cases hb : s[i] = c
    · simp [hb, hrest]
    · have hb2 : ¬ c = s[i] := fun h => hb h.symm
      simp [hb, hb2]

theorem stringsIndex_short (substr : List Nat) :
    ∀ s : List Nat, s.length < substr.length → stringsIndex s substr = none := by
  intro s
  induction s with
  | nil =>
    intro h
    cases substr with
    | nil => simp at h
    | cons c cs => simp [stringsIndex, List.isPrefixOf]
  | cons b rest ih =>
    intro h
    have hnp : substr.isPrefixOf (b :: rest) = false := by
      rw [Bool.eq_false_iff]
      intro hp
      have hle := (List.isPrefixOf_iff_prefix.mp hp).length_le
      omega
    have hrest := ih (by simp only [List.length_cons] at h; omega)
    simp [stringsIndex, hnp, hrest]

theorem stringsIndex_of_isPrefixOf (s substr : List Nat) (h : substr.isPrefixOf s = true) :
    stringsIndex s substr = some 0 := by
  cases s with
  | nil => simp [stringsIndex, h]
  | cons b rest => simp [stringsIndex, h]

theorem stringsIndex_cons (b : Nat) (rest substr : List Nat)
    (h : substr.isPrefixOf (b :: rest) = false) :
    stringsIndex (b :: rest) substr = (stringsIndex rest substr).map (fun p => p + 1) := by
  simp [stringsIndex, h]

/-- The loop started at index `i` returns the first offset of the marker at or
after `i`, or the length of the string when there is none. -/
theorem scanLoop_eq (s : List Nat) :
    ∀ n i, s.length - i = n → i ≤ s.length →
      scanLoop s i =
        some (match stringsIndex (s.drop i) rootSignatureMarker with
          | some p => i + p
          | none => s.length) := by
  intro n
  induction n with
  | zero =>
    intro i hn hi
    have hlen : (s.drop i).length < rootSignatureMarker.length := by
      simp only [List.length_drop]
      have : rootSignatureMarker.length = 16 := rfl
      omega
    rw [scanLoop, if_neg (by omega), stringsIndex_short _ _ hlen]
  | succ n ih =>
    intro i hn hi
    by_cases hc : (i : Int) < (s.length : Int) - 15
    · have hfit : i + rootSignatureMarker.length ≤ s.length := by
        have : rootSignatureMarker.length = 16 := rfl
        omega
      have hlt : i < s.length := by omega
      have hdrop : s.drop i = s[i] :: s.drop (i + 1) := List.drop_eq_getElem_cons hlt
      rw [scanLoop, if_pos hc, markerAt_eq s rootSignatureMarker i hfit]
      cases hp : rootSignatureMarker.isPrefixOf (s.drop i) with
      | true =>
        simp only [stringsIndex_of_isPrefixOf _ _ hp, Nat.add_zero]
      | false =>
        simp only
        rw [ih (i + 1) (by omega) (by omega)]
        rw [hdrop] at hp
        rw [hdrop, stringsIndex_cons _ _ _ hp]
        cases stringsIndex (List.drop (i + 1) s) rootSignatureMarker with
        | none => rfl
        | some p =>
          simp only [Option.map_some', Option.some.injEq]
          ring
    · have hlen : (s.drop i).length < rootSignatureMarker.length := by
        simp only [List.length_drop]
        have : rootSignatureMarker.length = 16 := rfl
        omega
      rw [scanLoop, if_neg hc, stringsIndex_short _ _ hlen]

theorem scanLoop_zero (s : List Nat) :
    scanLoop s 0 = some ((stringsIndex s rootSignatureMarker).getD s.length) := by
  rw [scanLoop_eq s s.length 0 rfl (Nat.zero_le _)]
  simp only [List.drop_zero]
  cases stringsIndex s rootSignatureMarker with
  | none => rfl
  | some p => simp

/-- What stringsIndex returns is the first offset at which `substr` starts. -/
theorem stringsIndex_some_iff (substr : List Nat) :
    ∀ (s : List Nat) (p : Nat), stringsIndex s substr = some p ↔
      (substr <+: s.drop p ∧ p ≤ s.length ∧ ∀ j, j < p → ¬ substr <+: s.drop j) := by
  intro s
  induction s with
  | nil =>
    intro p
    by_cases hp : substr.isPrefixOf [] = true
    · have hpre : substr <+: [] := List.isPrefixOf_iff_prefix.mp hp
      simp only [stringsIndex, hp, if_true, Option.some.injEq, List.drop_nil, List.length_nil,
        Nat.le_zero_eq]
      constructor
      · rintro rfl
        exact ⟨hpre, rfl, fun j hj => absurd hj (Nat.not_lt_zero _)⟩
      · exact fun h => h.2.1.symm
    · have hpre : ¬ substr <+: [] := fun h => hp (List.isPrefixOf_iff_prefix.mpr h)
      simp only [stringsIndex, hp, List.drop_nil]
      constructor
      · intro h
        exact absurd h (by simp)
      · exact fun h => absurd h.1 hpre
  | cons b rest ih =>
    intro p
    by_cases hp : substr.isPrefixOf (b :: rest) = true
    · have hpre : substr <+: (b :: rest) := List.isPrefixOf_iff_prefix.mp hp
      simp only [stringsIndex, hp, if_true, Option.some.injEq]
      constructor
      · rintro rfl
        exact ⟨hpre, Nat.zero_le _, fun j hj => absurd hj (Nat.not_lt_zero _)⟩
      · rintro ⟨_, _, hmin⟩
        by_contra hne
        exact hmin 0 (Nat.pos_of_ne_zero (fun h => hne h.symm)) hpre
    · have hpre : ¬ substr <+: (b :: rest) := fun h => hp (List.isPrefixOf_iff_prefix.mpr h)
      have hp2 : substr.isPrefixOf (b :: rest) = false := Bool.eq_false_iff.mpr hp
      rw [stringsIndex_cons _ _ _ hp2]
      cases p with
      | zero =>
        constructor
        · intro h
          cases hs : stringsIndex rest substr with
          | none => rw [hs] at h; exact absurd h (by simp)
          | some q => rw [hs] at h; simp at h
        · exact fun h => absurd h.1 hpre
      | succ q =>
        have hih := ih q
        constructor
        · intro h
          have hq : stringsIndex rest substr = some q := by
            cases hs : stringsIndex rest substr with
            | none => rw [hs] at h; exact absurd h (by simp)
            | some q' =>
              rw [hs] at h
              simp only [Option.map_some', Option.some.injEq, Nat.add_right_cancel_iff] at h
              rw [h]
          obtain ⟨h1, h2, h3⟩ := hih.mp hq
          refine ⟨h1, by simp only [List.length_cons]; omega, fun j hj => ?_⟩
          cases j with
          | zero => exact hpre
          | succ j' => exact h3 j' (by omega)
        · rintro ⟨h1, h2, h3⟩
          have hq : stringsIndex rest substr = some q :=
            hih.mpr ⟨h1, by simp only [List.length_cons] at h2; omega,
              fun j hj => h3 (j + 1) (by omega)⟩
          rw [hq]
          rfl

theorem stringsIndex_none_iff (substr : List Nat) (s : List Nat) :
    stringsIndex s substr = none ↔ ∀ p, p ≤ s.length → ¬ substr <+: s.drop p := by
  constructor
  · intro h p hp hpre
    -- take the least offset at which substr starts
    have hex : ∃ q, q ≤ s.length ∧ substr <+: s.drop q := ⟨p, hp, hpre⟩
    classical
    let q := Nat.find hex
    have hq := Nat.find_spec hex
    have hmin : ∀ j, j < q → ¬ substr <+: s.drop j := by
      intro j hj hj2
      exact Nat.find_min hex hj ⟨by omega, hj2⟩
    have := (stringsIndex_some_iff substr s q).mpr ⟨hq.2, hq.1, hmin⟩
    rw [h] at this
    exact Option.noConfusion this
  · intro h
    cases hs : stringsIndex s substr with
    | none => rfl
    | some p =>
      obtain ⟨h1, h2, _⟩ := (stringsIndex_some_iff substr s p).mp hs
      exact absurd h1 (h p h2)

/-! ## ComputeLicenseKeyHash: the properties -/

theorem prefix_drop_length (substr s : List Nat) (p : Nat) (h : substr <+: s.drop p) :
    p + substr.length ≤ s.length ∨ substr = [] := by
  have hle := h.length_le
  rw [List.length_drop] at hle
  by_cases hs : substr = []
  · exact Or.inr hs
  · left
    have hpos : 0 < substr.length := List.length_pos.mpr hs
    omega

theorem ComputeLicenseKeyHash_eq (Sum256 : List Nat → Fin 32 → Nat) (s : List Nat) :
    ComputeLicenseKeyHash Sum256 s =
      some (List.ofFn (Sum256
        (match stringsIndex s rootSignatureMarker with
          | some p => s.take p
          | none => s))) := by
  unfold ComputeLicenseKeyHash
  rw [scanLoop_zero]
  cases hs : stringsIndex s rootSignatureMarker with
  | none => simp
  | some p =>
    obtain ⟨h1, _, _⟩ := (stringsIndex_some_iff rootSignatureMarker s p).mp hs
    have hlt : p < s.length := by
      rcases prefix_drop_length _ _ _ h1 with h | h
      · have : rootSignatureMarker.length = 16 := rfl
        omega
      · exact absurd h (by decide)
    simp [hlt]

theorem stringsIndex_append (substr post : List Nat) :
    ∀ (l : List Nat) (p : Nat), stringsIndex l substr = some p →
      stringsIndex (l ++ post) substr = some p := by
  intro l p h
  obtain ⟨h1, h2, h3⟩ := (stringsIndex_some_iff substr l p).mp h
  rw [stringsIndex_some_iff]
  have hdrop : (l ++ post).drop p = l.drop p ++ post := List.drop_append_of_le_length h2
  refine ⟨?_, by rw [List.length_append]; omega, fun j hj hpre => ?_⟩
  · rw [hdrop]
    exact h1.trans (List.prefix_append _ _)
  · have hj2 : j ≤ l.length := by omega
    rw [List.drop_append_of_le_length hj2] at hpre
    have hlen : substr.length ≤ (l.drop j).length := by
      have hle := h1.length_le
      rw [List.length_drop] at hle
      rw [List.length_drop]
      omega
    exact h3 j hj (List.prefix_of_prefix_length_le hpre (List.prefix_append _ _) hlen)

theorem ComputeLicenseKeyHash_append (Sum256 : List Nat → Fin 32 → Nat)
    (pre post : List Nat) :
    ComputeLicenseKeyHash Sum256 (pre ++ rootSignatureMarker ++ post) =
      ComputeLicenseKeyHash Sum256 (pre ++ rootSignatureMarker) := by
  have hex : ∃ p, stringsIndex (pre ++ rootSignatureMarker) rootSignatureMarker = some p := by
    cases hs : stringsIndex (pre ++ rootSignatureMarker) rootSignatureMarker with
    | some p => exact ⟨p, rfl⟩
    | none =>
      exfalso
      refine (stringsIndex_none_iff _ _).mp hs pre.length (by simp) ?_
      rw [List.drop_left]
  obtain ⟨p, hp⟩ := hex
  have hp2 := stringsIndex_append rootSignatureMarker post _ p hp
  obtain ⟨_, hle, _⟩ := (stringsIndex_some_iff _ _ p).mp hp
  rw [ComputeLicenseKeyHash_eq, ComputeLicenseKeyHash_eq, hp, hp2]
  simp only
  rw [List.take_append_of_le_length hle]

/-- C23. ComputeLicenseKeyHash hashes the part of the input before the first
"\nROOT_SIGNATURE:": the position the loop finds is the one a
first-substring-index search returns (the length of the input when the marker
does not occur); when the marker starts at offset `p` and at no smaller offset
the result is the SHA-256 of the first `p` bytes (also for `p = 0` and for a
marker that ends the input); when it occurs nowhere the result is the SHA-256
of the whole input; and what follows the marker does not change the result. -/
theorem ComputeLicenseKeyHash_key_part (Sum256 : List Nat → Fin 32 → Nat) (s : List Nat) :
    rootSignatureMarker = "\nROOT_SIGNATURE:".data.map Char.toNat ∧
    scanLoop s 0 = some ((stringsIndex s rootSignatureMarker).getD s.length) ∧
    (∀ p, rootSignatureMarker <+: s.drop p →
      (∀ j, j < p → ¬ rootSignatureMarker <+: s.drop j) →
      ComputeLicenseKeyHash Sum256 s = some (List.ofFn (Sum256 (s.take p)))) ∧
    ((∀ p, ¬ rootSignatureMarker <+: s.drop p) →
      ComputeLicenseKeyHash Sum256 s = some (List.ofFn (Sum256 s))) ∧
    (∀ pre post, s = pre ++ rootSignatureMarker ++ post →
      ComputeLicenseKeyHash Sum256 s =
        ComputeLicenseKeyHash Sum256 (pre ++ rootSignatureMarker)) := by
  refine ⟨by decide, scanLoop_zero s, fun p hpre hmin => ?_, fun hnone => ?_,
    fun pre post hs => ?_⟩
  · have hle : p ≤ s.length := by
      rcases prefix_drop_length _ _ _ hpre with h | h
      · omega
      · exact absurd h (by decide)
    rw [ComputeLicenseKeyHash_eq,
      (stringsIndex_some_iff rootSignatureMarker s p).mpr ⟨hpre, hle, hmin⟩]
  · rw [ComputeLicenseKeyHash_eq,
      (stringsIndex_none_iff rootSignatureMarker s).mpr (fun p _ => hnone p)]
  · rw [hs]
    exact ComputeLicenseKeyHash_append Sum256 pre post

/-- Witness for C23: the marker after three bytes and before two more, with a
constant function in the place of SHA-256. -/
theorem ComputeLicenseKeyHash_key_part_witness :
    ComputeLicenseKeyHash (fun _ _ => 0) ([1, 2, 3] ++ rootSignatureMarker ++ [9, 9]) =
        some (List.ofFn ((fun _ _ => 0 : List Nat → Fin 32 → Nat)
          (([1, 2, 3] ++ rootSignatureMarker ++ [9, 9]).take 3))) ∧
      ComputeLicenseKeyHash (fun _ _ => 0) ([1, 2, 3] ++ rootSignatureMarker ++ [9, 9]) =
        ComputeLicenseKeyHash (fun _ _ => 0) ([1, 2, 3] ++ rootSignatureMarker) :=
  ⟨(ComputeLicenseKeyHash_key_part (fun _ _ => 0)
      ([1, 2, 3] ++ rootSignatureMarker ++ [9, 9])).2.2.1 3 (by decide) (by decide),
    (ComputeLicenseKeyHash_key_part (fun _ _ => 0)
      ([1, 2, 3] ++ rootSignatureMarker ++ [9, 9])).2.2.2.2 [1, 2, 3] [9, 9] rfl⟩

/-- C30. For every input, the empty one and those shorter than the marker
included, the loop reads no index outside the string (it returns a position,
at most the length of the input) and ComputeLicenseKeyHash returns a slice of
exactly 32 bytes. -/
theorem ComputeLicenseKeyHash_total (Sum256 : List Nat → Fin 32 → Nat) (s : List Nat) :
    (∃ pos, scanLoop s 0 = some pos ∧ pos ≤ s.length) ∧
    ∃ hash, ComputeLicenseKeyHash Sum256 s = some hash ∧ hash.length = 32 := by
  constructor
  · refine ⟨_, scanLoop_zero s, ?_⟩
    cases hs : stringsIndex s rootSignatureMarker with
    | none => exact Nat.le_refl _
    | some p => exact ((stringsIndex_some_iff rootSignatureMarker s p).mp hs).2.1
  · exact ⟨_, ComputeLicenseKeyHash_eq Sum256 s, List.length_ofFn _⟩

/-! ## The response pool -/

theorem mem_Delete_ne {V : Type} (m : List (String × V)) (k : String) (e : String × V)
    (h : e ∈ Delete m k) : e.1 ≠ k := by
  induction m with
  | nil => simp [Delete] at h
  | cons x rest ih =>
    obtain ⟨k', v'⟩ := x
    by_cases hk : k' = k
    · simp only [Delete, hk, if_true] at h
      exact ih h
    · simp only [Delete, hk, if_false, List.mem_cons] at h
      rcases h with h | h
      · rw [h]
        exact hk
      · exact ih h

theorem deleteAll_nil {V : Type} (l : List (String × V)) :
    ∀ acc : List (String × V), (∀ e ∈ acc, ∃ x ∈ l, x.1 = e.1) →
      l.foldl (fun a e => Delete a e.1) acc = [] := by
  induction l with
  | nil =>
    intro acc h
    cases acc with
    | nil => rfl
    | cons e rest =>
      obtain ⟨x, hx, _⟩ := h e (List.mem_cons_self _ _)
      exact absurd hx (List.not_mem_nil _)
  | cons y l ih =>
    intro acc h
    rw [List.foldl_cons]
    apply ih
    intro e he
    obtain ⟨x, hx, hxe⟩ := h e (mem_Delete _ _ _ he)
    rcases List.mem_cons.mp hx with heq | hmem
    · exact absurd (heq ▸ hxe).symm (mem_Delete_ne _ _ _ he)
    · exact ⟨x, hmem, hxe⟩

theorem clearMap_nil (m : ResponseMap) : clearMap m = [] :=
  deleteAll_nil m m (fun e he => ⟨e, he, rfl⟩)

theorem ReachablePool_empty (pool : ResponsePool) (h : ReachablePool pool) :
    ∀ m ∈ pool, m = [] := by
  induction h with
  | init => exact fun m hm => absurd hm (List.not_mem_nil _)
  | @get pool _ ih =>
    intro m hm
    cases pool with
    | nil => exact absurd hm (List.not_mem_nil _)
    | cons x rest => exact ih m (List.mem_cons_of_mem _ hm)
  | put m0 _ ih =>
    intro m hm
    rcases List.mem_cons.mp hm with heq | hmem
    · rw [heq]
      exact clearMap_nil m0
    · exact ih m hmem

theorem getResponseMap_empty (pool : ResponsePool) (h : ReachablePool pool) :
    (getResponseMap pool).1 = [] := by
  cases pool with
  | nil => rfl
  | cons x rest => exact ReachablePool_empty _ h x (List.mem_cons_self _ _)

/-- C25. For every map, the loop of putResponseMap deletes every key, so the
map that putResponseMap places in the pool is empty; hence every map in a pool
that only getResponseMap and putResponseMap have touched is empty, and a map
obtained from it carries no key or value of an earlier request. -/
theorem putResponseMap_clears (pool : ResponsePool) (m : ResponseMap) :
    clearMap m = [] ∧
    putResponseMap pool m = [] :: pool ∧
    (ReachablePool pool → (getResponseMap (putResponseMap pool m)).1 = []) ∧
    (ReachablePool pool → ∀ x ∈ putResponseMap pool m, x = []) := by
  refine ⟨clearMap_nil m, ?_, fun h => ?_, fun h => ?_⟩
  · unfold putResponseMap
    rw [clearMap_nil]
  · exact getResponseMap_empty _ (ReachablePool.put m h)
  · exact ReachablePool_empty _ (ReachablePool.put m h)

/-- Witness for C25: a map with three keys is returned to the empty pool. -/
theorem putResponseMap_clears_witness :
    (getResponseMap (putResponseMap []
      [("success", Value.bool true), ("message", Value.str "Device registered successfully"),
        ("device_id", Value.str idA)])).1 = [] :=
  (putResponseMap_clears []
    [("success", Value.bool true), ("message", Value.str "Device registered successfully"),
      ("device_id", Value.str idA)]).2.2.1 ReachablePool.init

/-! ## The transfer route -/

/-- C21. On a POST to the transfer route whose body decodes to `q`: when
RequestTokenTransfer returns an error the response has status 500 and its body
is the error's message (with the newline `http.Error` appends); when it returns
nil the response is 200 with the encoded map of `success` and `message`. And
whatever the method and body, a response with status 200 is produced only when
the method is POST, the body decoded and RequestTokenTransfer returned nil. -/
theorem handleTokenTransfer_status (encode : ResponseMap → String) (service : DeviceRegistry)
    (pool : ResponsePool) (now : Int) (q : TokenTransfer) :
    (∀ msg, (RequestTokenTransfer service now q).2 = Outcome.err msg →
      (handleTokenTransfer encode service pool now "POST" (some q)).2.2 =
        Reply.sent ⟨500, msg ++ "\n"⟩) ∧
    ((RequestTokenTransfer service now q).2 = Outcome.nil →
      (handleTokenTransfer encode service pool now "POST" (some q)).2.2 =
        Reply.sent ⟨200, encode (Store (Store (getResponseMap pool).1 "success"
          (Value.bool true)) "message" (Value.str "Transfer request recorded"))⟩ ∧
      (ReachablePool pool →
        Store (Store (getResponseMap pool).1 "success" (Value.bool true)) "message"
            (Value.str "Transfer request recorded") =
          [("success", Value.bool true), ("message", Value.str "Transfer request recorded")])) ∧
    (∀ method body response,
      (handleTokenTransfer encode service pool now method body).2.2 = Reply.sent response →
      response.status = 200 →
      method = "POST" ∧ ∃ q', body = some q' ∧
        (RequestTokenTransfer service now q').2 = Outcome.nil) := by
  refine ⟨fun msg herr => ?_, fun hok => ⟨?_, fun hp => ?_⟩, fun method body response hr hs => ?_⟩
  · unfold handleTokenTransfer
    rcases hR : RequestTokenTransfer service now q with ⟨s1, o⟩
    rw [hR] at herr
    simp only at herr
    subst herr
    simp [hR]
  · unfold handleTokenTransfer
    rcases hR : RequestTokenTransfer service now q with ⟨s1, o⟩
    rw [hR] at hok
    simp only at hok
    subst hok
    simp [hR, writeJSONResponse]
  · rw [getResponseMap_empty pool hp]
    rfl
  · unfold handleTokenTransfer at hr
    by_cases hm : method = "POST"
    · refine ⟨hm, ?_⟩
      cases body with
      | none =>
        simp only [hm, ne_eq, not_true_eq_false, if_false, Reply.sent.injEq] at hr
        rw [← hr] at hs
        exact absurd hs (by decide)
      | some q' =>
        refine ⟨q', rfl, ?_⟩
        simp only [hm, ne_eq, not_true_eq_false, if_false] at hr
        rcases hR : RequestTokenTransfer service now q' with ⟨s1, o⟩
        rw [hR] at hr
        cases o with
        | nil => rfl
        | err msg =>
          simp only [Reply.sent.injEq] at hr
          rw [← hr] at hs
          simp at hs
        | panic =>
          simp only at hr
          exact Reply.noConfusion hr
    · simp only [ne_eq, hm, not_false_eq_true, if_true, Reply.sent.injEq] at hr
      rw [← hr] at hs
      exact absurd hs (by decide)

/-- Witness for C21: `idA` asks for L1 while `idB` holds it. -/
theorem handleTokenTransfer_status_witness :
    (handleTokenTransfer sampleEncode (Register (Register NewDeviceRegistry 1 devA) 2 devB) [] 3
        "POST" (some ⟨tok1, "", idA, idB, "L1", 0⟩)).2.2 =
      Reply.sent ⟨500, ("device " ++ idA ++ " does not hold license L1 (current holder: " ++
        idB ++ ")") ++ "\n"⟩ :=
  (handleTokenTransfer_status sampleEncode (Register (Register NewDeviceRegistry 1 devA) 2 devB)
    [] 3 ⟨tok1, "", idA, idB, "L1", 0⟩).1
    ("device " ++ idA ++ " does not hold license L1 (current holder: " ++ idB ++ ")")
    (by decide)

/-! ## The register route -/

theorem handleRegister_service (encode : ResponseMap → String) (service : DeviceRegistry)
    (pool : ResponsePool) (now : Int) (remoteAddr : String) (d : Device) :
    (handleRegister encode service pool now "POST" remoteAddr (some d)).1 =
      Register service now
        (if d.PublicIP = "" then { d with PublicIP := remoteAddr } else d) := by
  unfold handleRegister
  simp only [ne_eq, not_true_eq_false, if_false]
  rw [RegisterDevice_eq]
  split_ifs <;> rfl

/-- On the first registration of a device id through the register route the
stored record has the remote address as public_ip when none was supplied, and
the supplied public_ip otherwise. -/
theorem handleRegister_new_device_ip (encode : ResponseMap → String)
    (service : DeviceRegistry) (pool : ResponsePool) (now : Int) (remoteAddr : String)
    (d : Device) (hnew : Load service.devices d.DeviceID = none) :
    ∃ rec, Load (handleRegister encode service pool now "POST" remoteAddr
        (some d)).1.devices d.DeviceID = some rec ∧
      rec.PublicIP = (if d.PublicIP = "" then remoteAddr else d.PublicIP) := by
  rw [handleRegister_service]
  by_cases hip : d.PublicIP = ""
  · simp only [hip, if_true]
    have h := Register_Load_self service now { d with PublicIP := remoteAddr }
    simp only [hnew] at h
    exact ⟨_, h, rfl⟩
  · simp only [hip, if_false]
    have h := Register_Load_self service now d
    simp only [hnew] at h
    exact ⟨_, h, rfl⟩

/-- C22, at a device id that is already registered. `idA` is registered with
public_ip 10.0.0.1; a later POST to the register route for `idA` with an empty
public_ip from remote address 203.0.113.7:40000 is answered with status 200,
but the record in the registry still has public_ip 10.0.0.1, not the remote
address. -/
theorem handleRegister_existing_keeps_ip :
    (handleRegister sampleEncode (Register NewDeviceRegistry 100 devA) [] 200 "POST"
        "203.0.113.7:40000" (some ⟨idA, "L1", "", 7001, 0⟩)).2.2 =
      Reply.sent ⟨200, "json"⟩ ∧
    (Load (handleRegister sampleEncode (Register NewDeviceRegistry 100 devA) [] 200 "POST"
        "203.0.113.7:40000" (some ⟨idA, "L1", "", 7001, 0⟩)).1.devices idA).map
        Device.PublicIP = some "10.0.0.1" ∧
    (Load (handleRegister sampleEncode (Register NewDeviceRegistry 100 devA) [] 200 "POST"
        "203.0.113.7:40000" (some ⟨idA, "L1", "", 7001, 0⟩)).1.devices idA).map
        Device.PublicIP ≠ some "203.0.113.7:40000" := by
  decide

/-! ## The holder route -/

theorem licenseCodeOfPath_holder (c : String) (hc : c ≠ "") :
    licenseCodeOfPath ("/api/licenses/" ++ c ++ "/holder") = c := by
  have hdata : ("/api/licenses/" ++ c ++ "/holder").data =
      "/api/licenses/".data ++ (c.data ++ "/holder".data) := by
    simp [String.data_append]
  have hdrop : ("/api/licenses/" ++ c ++ "/holder").data.drop 14 = c.data ++ "/holder".data := by
    rw [hdata]
    exact List.drop_left' rfl
  have hne : c.data ≠ [] := by
    intro h
    apply hc
    cases c with
    | mk l =>
      simp only at h
      rw [h]
  have hsize : (String.mk (c.data ++ "/holder".data)).utf8ByteSize > 7 := by
    rw [String.utf8ByteSize_mk, String.utf8Len_append]
    have h7 : String.utf8Len "/holder".data = 7 := by decide
    have hpos : 0 < String.utf8Len c.data :=
      Nat.pos_of_ne_zero (fun h => hne (String.utf8Len_eq_zero.mp h))
    omega
  have hsuf : "/holder".data.isSuffixOf (c.data ++ "/holder".data) = true :=
    List.isSuffixOf_iff_suffix.mpr (List.suffix_append _ _)
  have htake : (c.data ++ "/holder".data).take ((c.data ++ "/holder".data).length - 7) =
      c.data := by
    have hlen : (c.data ++ "/holder".data).length - 7 = c.data.length := by
      rw [List.length_append]
      have : "/holder".data.length = 7 := by decide
      omega
    rw [hlen]
    exact List.take_left' rfl
  unfold licenseCodeOfPath
  simp only [hdrop]
  rw [if_pos ⟨hsize, hsuf⟩, htake]

/-- What handleGetLicenseHolder does when it is given the path
"/api/licenses/" + c + "/holder" for a non-empty `c`: it looks up the key `c`. -/
theorem handleGetLicenseHolder_holder_path (encode : Device → String)
    (service : DeviceRegistry) (c : String) (hc : c ≠ "") :
    handleGetLicenseHolder encode service "GET" ("/api/licenses/" ++ c ++ "/holder") =
      (match GetLicenseHolder service c with
        | (service1, none) => (service1, Reply.sent ⟨404, "License not found\n"⟩)
        | (service1, some device) => (service1, Reply.sent (writeJSONResponse encode device))) := by
  have hkey := licenseCodeOfPath_holder c hc
  have hlen : ¬ ("/api/licenses/" ++ c ++ "/holder").utf8ByteSize < 14 := by
    have h14 : String.utf8Len "/api/licenses/".data = 14 := by decide
    have hd : ("/api/licenses/" ++ c ++ "/holder") =
        String.mk ("/api/licenses/".data ++ (c.data ++ "/holder".data)) := by
      apply String.ext
      simp [String.data_append]
    rw [hd, String.utf8ByteSize_mk, String.utf8Len_append]
    omega
  unfold handleGetLicenseHolder
  simp only [ne_eq, not_true_eq_false, if_false, hlen, hkey]

theorem holder_path_begins (c : String) :
    "/api/licenses/".data.isPrefixOf ("/api/licenses/" ++ c ++ "/holder").data = true := by
  have hdata : ("/api/licenses/" ++ c ++ "/holder").data =
      "/api/licenses/".data ++ (c.data ++ "/holder".data) := by
    simp [String.data_append]
  rw [hdata]
  exact List.isPrefixOf_iff_prefix.mpr (List.prefix_append _ _)

/-- C24 as stated fails. In `sampleOddCodes` the license with the empty code
and the license "a//b" both have holders, but a GET whose path is
"/api/licenses/" + c + "/holder" for either code is not canonical
("/api/licenses//holder" has a repeated slash): the mux answers it with a
redirect and handleGetLicenseHolder never runs, so the key `c` is not looked
up. -/
theorem holderRoute_redirected :
    (GetLicenseHolder sampleOddCodes "").2 ≠ none ∧
    serveLicensesRoute sampleEncode sampleOddCodes "GET"
        ("/api/licenses/" ++ "" ++ "/holder") = Routed.redirected ∧
    serveLicensesRoute sampleEncode sampleOddCodes "GET"
        ("/api/licenses/" ++ "" ++ "/holder") ≠
      Routed.handled (match GetLicenseHolder sampleOddCodes "" with
        | (service1, none) => (service1, Reply.sent ⟨404, "License not found\n"⟩)
        | (service1, some device) =>
          (service1, Reply.sent (writeJSONResponse sampleEncode device))) ∧
    (GetLicenseHolder sampleOddCodes "a//b").2 ≠ none ∧
    serveLicensesRoute sampleEncode sampleOddCodes "GET"
        ("/api/licenses/" ++ "a//b" ++ "/holder") = Routed.redirected := by
  decide

/-- C24, amended. For every license code `c`: when the path
"/api/licenses/" + c + "/holder" is canonical (no empty, "." or ".." element,
so `c` is not empty), a GET with that path reaches handleGetLicenseHolder,
which removes the prefix and the trailing "/holder" and looks up exactly the
key `c` (404 when GetLicenseHolder(c) is not found, the encoded record
otherwise); when the path is not canonical the mux redirects the request and
the handler does not run. -/
theorem holderRoute_key (encode : Device → String) (service : DeviceRegistry) (c : String) :
    (isCleanPath ("/api/licenses/" ++ c ++ "/holder") = true →
      c ≠ "" ∧ licenseCodeOfPath ("/api/licenses/" ++ c ++ "/holder") = c ∧
      serveLicensesRoute encode service "GET" ("/api/licenses/" ++ c ++ "/holder") =
        Routed.handled (match GetLicenseHolder service c with
          | (service1, none) => (service1, Reply.sent ⟨404, "License not found\n"⟩)
          | (service1, some device) =>
            (service1, Reply.sent (writeJSONResponse encode device)))) ∧
    (isCleanPath ("/api/licenses/" ++ c ++ "/holder") = false →
      serveLicensesRoute encode service "GET" ("/api/licenses/" ++ c ++ "/holder") =
        Routed.redirected) := by
  constructor
  · intro hclean
    have hc : c ≠ "" := by
      intro h
      rw [h] at hclean
      exact absurd hclean (by decide)
    refine ⟨hc, licenseCodeOfPath_holder c hc, ?_⟩
    unfold serveLicensesRoute
    rw [if_neg, if_pos (holder_path_begins c), handleGetLicenseHolder_holder_path encode service c hc]
    rintro ⟨_, h⟩
    rw [hclean] at h
    exact Bool.noConfusion h
  · intro hdirty
    unfold serveLicensesRoute
    rw [if_pos ⟨by decide, hdirty⟩]

/-- Witness for C24 amended: the path of license L1 reaches the handler, which
returns the record of the holder of L1. -/
theorem holderRoute_key_witness :
    isCleanPath ("/api/licenses/" ++ "L1" ++ "/holder") = true ∧
    ("L1" : String) ≠ "" ∧ licenseCodeOfPath ("/api/licenses/" ++ "L1" ++ "/holder") = "L1" ∧
      serveLicensesRoute sampleEncode sampleThree "GET"
          ("/api/licenses/" ++ "L1" ++ "/holder") =
        Routed.handled (match GetLicenseHolder sampleThree "L1" with
          | (service1, none) => (service1, Reply.sent ⟨404, "License not found\n"⟩)
          | (service1, some device) =>
            (service1, Reply.sent (writeJSONResponse sampleEncode device))) :=
  ⟨by decide, (holderRoute_key sampleEncode sampleThree "L1").1 (by decide)⟩

end DecentriLicense
